import Mathlib

/-!
Verification of the cloud-mail API client (`src/jiaoben/cloudmail.py`).

The Python script is a small synchronous HTTP client.  We embed it shallowly:

* JSON values (as produced by `response.json()` and held in Python variables)
  become the inductive type `JValue`; Python `None` is `JValue.null`, Python
  dicts are insertion-ordered association lists.
* The network is an explicit input: each call of `requests.post` is represented
  by an `HttpOutcome` value (a raised transport exception, or a response with an
  HTTP status and the outcome of `response.json()`).
* The mutable object state (`self.base_url`, `self.token`) becomes the
  structure `EmailAPI`, passed and returned explicitly.  Each method also
  returns the list of request payloads it transmitted, so "no HTTP request is
  made" and "the transmitted payload contains ..." are provable statements.
-/

/-- JSON values / Python objects handled by the client.  `null` doubles as
Python `None` (which is what `json` produces for JSON `null`).  Numbers are
integers: the client only ever builds or inspects integral fields. -/
inductive JValue : Type where
  | null : JValue
  | bool : Bool → JValue
  | num : Int → JValue
  | str : String → JValue
  | arr : List JValue → JValue
  | obj : List (String × JValue) → JValue

/-- Python `d.get(k)` on a dict modelled as an insertion-ordered association
list: the first binding for `k`, if any. -/
def dictGet (fields : List (String × JValue)) (k : String) : Option JValue :=
  match fields with
  | [] => none
  | (k', v) :: rest => if k' = k then some v else dictGet rest k

/-- Whether key `k` occurs in the payload at all (a key transmitted in the
JSON request body). -/
def hasKey (fields : List (String × JValue)) (k : String) : Bool :=
  (dictGet fields k).isSome

/-- Python truthiness of a value (`if x:`): `None`, `False`, `0`, `""`, `[]`
and the empty dict are falsy, everything else is truthy. -/
def truthy : JValue → Bool
  | .null => false
  | .bool b => b
  | .num n => n != 0
  | .str s => !s.isEmpty
  | .arr xs => !xs.isEmpty
  | .obj fs => !fs.isEmpty

/-- Python truthiness of an `Optional[str]` argument (`if send_name:`). -/
def optStrTruthy : Option String → Bool
  | none => false
  | some s => !s.isEmpty

/-- Python `d.get("code") == 200`: true exactly when the looked-up value is
the integer `200` (Python's `==` across types makes any non-number compare
unequal to `200`; `True == 200` is also false). -/
def isCode200 (v : Option JValue) : Bool :=
  match v with
  | some (.num n) => n == 200
  | _ => false

/-- Outcome of one `requests.post(...)` call: either the call raised a
transport exception carrying a message, or it returned a response with an HTTP
status code and the result of `response.json()` (`Except.error` is a JSON
decode failure, which `requests` raises as a `RequestException` subclass). -/
inductive HttpOutcome : Type where
  | exc : String → HttpOutcome
  | resp : Nat → Except String JValue → HttpOutcome

/-- The mutable state of the `EmailAPI` object: `self.base_url` and
`self.token` (initially `None`). -/
structure EmailAPI where
  base_url : String
  token : JValue

/-- The module-level constant `API_BASE_URL`. -/
def API_BASE_URL : String := "https://mail.faiz.us.kg"

/-- `EmailAPI.__init__`: `self.base_url = (base_url or API_BASE_URL).rstrip('/')`,
`self.token = None`.  `base_url or API_BASE_URL` falls back to the constant
when the argument is `None` or empty. -/
def EmailAPI.init (base_url : Option String) : EmailAPI :=
  let chosen :=
    match base_url with
    | none => API_BASE_URL
    | some s => if s.isEmpty then API_BASE_URL else s
  { base_url := ⟨(chosen.toList.reverse.dropWhile (fun c => c = '/')).reverse⟩
    token := .null }

/-- The error dict the client builds in an `except` branch:
`{"code": -1, "message": str(e)}`. -/
def errDict (msg : String) : JValue :=
  .obj [("code", .num (-1)), ("message", .str msg)]

/-- The request payload of `get_token`: `{"email": email, "password": password}`. -/
def tokenPayload (email password : String) : List (String × JValue) :=
  [("email", .str email), ("password", .str password)]

/-- `EmailAPI.get_token`.  Sends one POST with `tokenPayload`; on a parsed
response whose embedded `code` equals `200` it stores
`data.get("data", {}).get("token")` into `self.token` (no `raise_for_status`,
so the HTTP status is never consulted) and returns the body unchanged; on any
raised exception (transport, JSON decode, or the `AttributeError` from calling
`.get` on a non-dict) it returns `{"code": -1, "message": str(e)}`.  Result:
(returned dict, new object state, payloads transmitted). -/
def EmailAPI.get_token (st : EmailAPI) (email password : String)
    (outcome : HttpOutcome) :
    JValue × EmailAPI × List (List (String × JValue)) :=
  let payload := tokenPayload email password
  match outcome with
  | .exc e => (errDict e, st, [payload])
  | .resp _status body =>
    match body with
    | .error e => (errDict e, st, [payload])
    | .ok data =>
      match data with
      | .obj fs =>
        if isCode200 (dictGet fs "code") then
          match (dictGet fs "data").getD (.obj []) with
          | .obj dfs =>
            (data, { st with token := (dictGet dfs "token").getD .null }, [payload])
          | _ => (errDict "AttributeError", st, [payload])
        else (data, st, [payload])
      | _ => (errDict "AttributeError", st, [payload])

/-- The arguments of `EmailAPI.get_mail_list` (Python defaults:
`send_sort="desc"`, `mail_type=0`, `num=1`, `size=20`, optional filters
`None`). -/
structure MailArgs where
  hd_email : String
  send_name : Option String
  send_email : Option String
  subject : Option String
  content : Option String
  send_sort : String
  mail_type : Int
  num : Int
  size : Int

/-- One optional payload entry: `if send_name: payload["sendName"] = send_name`
adds the key only when the argument is truthy (neither `None` nor `""`). -/
def optField (k : String) (v : Option String) : List (String × JValue) :=
  match v with
  | none => []
  | some s => if s.isEmpty then [] else [(k, .str s)]

/-- The request payload built by `get_mail_list`: the five required fields
(with `size` clamped by `min(size, 20)`) followed by the optional filter
fields that were supplied non-empty. -/
def mailListPayload (a : MailArgs) : List (String × JValue) :=
  [("toEmail", .str a.hd_email),
   ("timeSort", .str a.send_sort),
   ("type", .num a.mail_type),
   ("num", .num a.num),
   ("size", .num (min a.size 20))] ++
  optField "sendName" a.send_name ++
  optField "sendEmail" a.send_email ++
  optField "subject" a.subject ++
  optField "content" a.content

/-- The guard message of `get_mail_list` when `self.token` is falsy. -/
def noTokenMessage : String := "请先调用 get_token() 生成token"

/-- `EmailAPI.get_mail_list`.  If `self.token` is falsy it returns the
`code = -1` guard dict without transmitting anything.  Otherwise it POSTs
`mailListPayload`; `raise_for_status` turns an HTTP status in `400..599` into
a caught `RequestException`, a JSON decode failure is likewise caught, and a
parsed body is returned unchanged.  Result: (returned dict, new object state,
payloads transmitted). -/
def EmailAPI.get_mail_list (st : EmailAPI) (a : MailArgs)
    (outcome : HttpOutcome) :
    JValue × EmailAPI × List (List (String × JValue)) :=
  if truthy st.token = false then
    (.obj [("code", .num (-1)), ("message", .str noTokenMessage)], st, [])
  else
    let payload := mailListPayload a
    match outcome with
    | .exc e => (errDict e, st, [payload])
    | .resp status body =>
      if 400 ≤ status ∧ status < 600 then
        (errDict ("HTTPError " ++ Nat.repr status), st, [payload])
      else
        match body with
        | .error e => (errDict e, st, [payload])
        | .ok data => (data, st, [payload])

/-- Lines 178–179 of `test_mail_functions`:
`data_content = mail_result.get("data", [])` followed by
`mail_list = data_content if isinstance(data_content, list) else data_content.get("list", [])`.
The result is whatever Python value ends up in `mail_list` (not necessarily a
list), or the `AttributeError` raised when `.get` is called on a value that is
neither a list nor a dict. -/
def extract_mail_list (mail_result : JValue) : Except String JValue :=
  match mail_result with
  | .obj fs =>
    match (dictGet fs "data").getD (.arr []) with
    | .arr xs => .ok (.arr xs)
    | .obj gs => .ok ((dictGet gs "list").getD (.arr []))
    | _ => .error "AttributeError"
  | _ => .error "AttributeError"

/-- The Unicode simple lowercase mappings, as rules `(lo, hi, stride, delta)`:
every code point `lo`, `lo + stride`, ... up to `hi` lowercases to itself plus
`delta`.  Generated from the Unicode character database CPython's
`str.lower()` uses; every single-character lowercase mapping of every code
point is reproduced by these rules. -/
def lowerRules : List (Nat × Nat × Nat × Int) :=
  [(65, 90, 1, 32), (192, 214, 1, 32), (216, 222, 1, 32),
   (256, 302, 2, 1), (306, 310, 2, 1), (313, 327, 2, 1),
   (330, 374, 2, 1), (376, 376, 1, -121), (377, 381, 2, 1),
   (385, 385, 1, 210), (386, 388, 2, 1), (390, 390, 1, 206),
   (391, 391, 1, 1), (393, 394, 1, 205), (395, 395, 1, 1),
   (398, 398, 1, 79), (399, 399, 1, 202), (400, 400, 1, 203),
   (401, 401, 1, 1), (403, 403, 1, 205), (404, 404, 1, 207),
   (406, 406, 1, 211), (407, 407, 1, 209), (408, 408, 1, 1),
   (412, 412, 1, 211), (413, 413, 1, 213), (415, 415, 1, 214),
   (416, 420, 2, 1), (422, 422, 1, 218), (423, 423, 1, 1),
   (425, 425, 1, 218), (428, 428, 1, 1), (430, 430, 1, 218),
   (431, 431, 1, 1), (433, 434, 1, 217), (435, 437, 2, 1),
   (439, 439, 1, 219), (440, 440, 1, 1), (444, 444, 1, 1),
   (452, 452, 1, 2), (453, 453, 1, 1), (455, 455, 1, 2),
   (456, 456, 1, 1), (458, 458, 1, 2), (459, 475, 2, 1),
   (478, 494, 2, 1), (497, 497, 1, 2), (498, 500, 2, 1),
   (502, 502, 1, -97), (503, 503, 1, -56), (504, 542, 2, 1),
   (544, 544, 1, -130), (546, 562, 2, 1), (570, 570, 1, 10795),
   (571, 571, 1, 1), (573, 573, 1, -163), (574, 574, 1, 10792),
   (577, 577, 1, 1), (579, 579, 1, -195), (580, 580, 1, 69),
   (581, 581, 1, 71), (582, 590, 2, 1), (880, 882, 2, 1),
   (886, 886, 1, 1), (895, 895, 1, 116), (902, 902, 1, 38),
   (904, 906, 1, 37), (908, 908, 1, 64), (910, 911, 1, 63),
   (913, 929, 1, 32), (931, 939, 1, 32), (975, 975, 1, 8),
   (984, 1006, 2, 1), (1012, 1012, 1, -60), (1015, 1015, 1, 1),
   (1017, 1017, 1, -7), (1018, 1018, 1, 1), (1021, 1023, 1, -130),
   (1024, 1039, 1, 80), (1040, 1071, 1, 32), (1120, 1152, 2, 1),
   (1162, 1214, 2, 1), (1216, 1216, 1, 15), (1217, 1229, 2, 1),
   (1232, 1326, 2, 1), (1329, 1366, 1, 48), (4256, 4293, 1, 7264),
   (4295, 4295, 1, 7264), (4301, 4301, 1, 7264), (5024, 5103, 1, 38864),
   (5104, 5109, 1, 8), (7312, 7354, 1, -3008), (7357, 7359, 1, -3008),
   (7680, 7828, 2, 1), (7838, 7838, 1, -7615), (7840, 7934, 2, 1),
   (7944, 7951, 1, -8), (7960, 7965, 1, -8), (7976, 7983, 1, -8),
   (7992, 7999, 1, -8), (8008, 8013, 1, -8), (8025, 8031, 2, -8),
   (8040, 8047, 1, -8), (8072, 8079, 1, -8), (8088, 8095, 1, -8),
   (8104, 8111, 1, -8), (8120, 8121, 1, -8), (8122, 8123, 1, -74),
   (8124, 8124, 1, -9), (8136, 8139, 1, -86), (8140, 8140, 1, -9),
   (8152, 8153, 1, -8), (8154, 8155, 1, -100), (8168, 8169, 1, -8),
   (8170, 8171, 1, -112), (8172, 8172, 1, -7), (8184, 8185, 1, -128),
   (8186, 8187, 1, -126), (8188, 8188, 1, -9), (8486, 8486, 1, -7517),
   (8490, 8490, 1, -8383), (8491, 8491, 1, -8262), (8498, 8498, 1, 28),
   (8544, 8559, 1, 16), (8579, 8579, 1, 1), (9398, 9423, 1, 26),
   (11264, 11311, 1, 48), (11360, 11360, 1, 1), (11362, 11362, 1, -10743),
   (11363, 11363, 1, -3814), (11364, 11364, 1, -10727), (11367, 11371, 2, 1),
   (11373, 11373, 1, -10780), (11374, 11374, 1, -10749), (11375, 11375, 1, -10783),
   (11376, 11376, 1, -10782), (11378, 11378, 1, 1), (11381, 11381, 1, 1),
   (11390, 11391, 1, -10815), (11392, 11490, 2, 1), (11499, 11501, 2, 1),
   (11506, 11506, 1, 1), (42560, 42604, 2, 1), (42624, 42650, 2, 1),
   (42786, 42798, 2, 1), (42802, 42862, 2, 1), (42873, 42875, 2, 1),
   (42877, 42877, 1, -35332), (42878, 42886, 2, 1), (42891, 42891, 1, 1),
   (42893, 42893, 1, -42280), (42896, 42898, 2, 1), (42902, 42920, 2, 1),
   (42922, 42922, 1, -42308), (42923, 42923, 1, -42319), (42924, 42924, 1, -42315),
   (42925, 42925, 1, -42305), (42926, 42926, 1, -42308), (42928, 42928, 1, -42258),
   (42929, 42929, 1, -42282), (42930, 42930, 1, -42261), (42931, 42931, 1, 928),
   (42932, 42946, 2, 1), (42948, 42948, 1, -48), (42949, 42949, 1, -42307),
   (42950, 42950, 1, -35384), (42951, 42953, 2, 1), (42960, 42960, 1, 1),
   (42966, 42968, 2, 1), (42997, 42997, 1, 1), (65313, 65338, 1, 32),
   (66560, 66599, 1, 40), (66736, 66771, 1, 40), (66928, 66938, 1, 39),
   (66940, 66954, 1, 39), (66956, 66962, 1, 39), (66964, 66965, 1, 39),
   (68736, 68786, 1, 64), (71840, 71871, 1, 32), (93760, 93791, 1, 32),
   (125184, 125217, 1, 34)]

/-- The first matching rule applied, or the code point unchanged. -/
def applyLowerRules (n : Nat) : List (Nat × Nat × Nat × Int) → Nat
  | [] => n
  | (lo, hi, s, d) :: rs =>
    if lo ≤ n ∧ n ≤ hi ∧ (n - lo) % s = 0 then ((n : Int) + d).toNat
    else applyLowerRules n rs

/-- The single-character Unicode lowercase mapping of a code point. -/
def simpleLowerNat (n : Nat) : Nat := applyLowerRules n lowerRules

/-- Code-point ranges of characters that are cased and not case-ignorable
(the characters the Final_Sigma context scans stop at).  Generated from
CPython's case-conversion behaviour. -/
def casedRanges : List (Nat × Nat) :=
  [(65, 90), (97, 122), (170, 170), (181, 181), (186, 186), (192, 214),
   (216, 246), (248, 442), (444, 447), (452, 659), (661, 687), (880, 883),
   (886, 887), (891, 893), (895, 895), (902, 902), (904, 906), (908, 908),
   (910, 929), (931, 1013), (1015, 1153), (1162, 1327), (1329, 1366), (1376, 1416),
   (4256, 4293), (4295, 4295), (4301, 4301), (4304, 4346), (4349, 4351), (5024, 5109),
   (5112, 5117), (7296, 7304), (7312, 7354), (7357, 7359), (7424, 7467), (7531, 7543),
   (7545, 7578), (7680, 7957), (7960, 7965), (7968, 8005), (8008, 8013), (8016, 8023),
   (8025, 8025), (8027, 8027), (8029, 8029), (8031, 8061), (8064, 8116), (8118, 8124),
   (8126, 8126), (8130, 8132), (8134, 8140), (8144, 8147), (8150, 8155), (8160, 8172),
   (8178, 8180), (8182, 8188), (8450, 8450), (8455, 8455), (8458, 8467), (8469, 8469),
   (8473, 8477), (8484, 8484), (8486, 8486), (8488, 8488), (8490, 8493), (8495, 8500),
   (8505, 8505), (8508, 8511), (8517, 8521), (8526, 8526), (8544, 8575), (8579, 8580),
   (9398, 9449), (11264, 11387), (11390, 11492), (11499, 11502), (11506, 11507), (11520, 11557),
   (11559, 11559), (11565, 11565), (42560, 42605), (42624, 42651), (42786, 42863), (42865, 42887),
   (42891, 42894), (42896, 42954), (42960, 42961), (42963, 42963), (42965, 42969), (42997, 42998),
   (43002, 43002), (43824, 43866), (43872, 43880), (43888, 43967), (64256, 64262), (64275, 64279),
   (65313, 65338), (65345, 65370), (66560, 66639), (66736, 66771), (66776, 66811), (66928, 66938),
   (66940, 66954), (66956, 66962), (66964, 66965), (66967, 66977), (66979, 66993), (66995, 67001),
   (67003, 67004), (68736, 68786), (68800, 68850), (71840, 71903), (93760, 93823), (119808, 119892),
   (119894, 119964), (119966, 119967), (119970, 119970), (119973, 119974), (119977, 119980), (119982, 119993),
   (119995, 119995), (119997, 120003), (120005, 120069), (120071, 120074), (120077, 120084), (120086, 120092),
   (120094, 120121), (120123, 120126), (120128, 120132), (120134, 120134), (120138, 120144), (120146, 120485),
   (120488, 120512), (120514, 120538), (120540, 120570), (120572, 120596), (120598, 120628), (120630, 120654),
   (120656, 120686), (120688, 120712), (120714, 120744), (120746, 120770), (120772, 120779), (122624, 122633),
   (122635, 122654), (125184, 125251), (127280, 127305), (127312, 127337), (127344, 127369)]

/-- Code-point ranges of case-ignorable characters (skipped by the
Final_Sigma context scans).  Generated from CPython's case-conversion
behaviour. -/
def ignorableRanges : List (Nat × Nat) :=
  [(39, 39), (46, 46), (58, 58), (94, 94), (96, 96), (168, 168),
   (173, 173), (175, 175), (180, 180), (183, 184), (688, 879), (884, 885),
   (890, 890), (900, 901), (903, 903), (1155, 1161), (1369, 1369), (1375, 1375),
   (1425, 1469), (1471, 1471), (1473, 1474), (1476, 1477), (1479, 1479), (1524, 1524),
   (1536, 1541), (1552, 1562), (1564, 1564), (1600, 1600), (1611, 1631), (1648, 1648),
   (1750, 1757), (1759, 1768), (1770, 1773), (1807, 1807), (1809, 1809), (1840, 1866),
   (1958, 1968), (2027, 2037), (2042, 2042), (2045, 2045), (2070, 2093), (2137, 2139),
   (2184, 2184), (2192, 2193), (2200, 2207), (2249, 2306), (2362, 2362), (2364, 2364),
   (2369, 2376), (2381, 2381), (2385, 2391), (2402, 2403), (2417, 2417), (2433, 2433),
   (2492, 2492), (2497, 2500), (2509, 2509), (2530, 2531), (2558, 2558), (2561, 2562),
   (2620, 2620), (2625, 2626), (2631, 2632), (2635, 2637), (2641, 2641), (2672, 2673),
   (2677, 2677), (2689, 2690), (2748, 2748), (2753, 2757), (2759, 2760), (2765, 2765),
   (2786, 2787), (2810, 2815), (2817, 2817), (2876, 2876), (2879, 2879), (2881, 2884),
   (2893, 2893), (2901, 2902), (2914, 2915), (2946, 2946), (3008, 3008), (3021, 3021),
   (3072, 3072), (3076, 3076), (3132, 3132), (3134, 3136), (3142, 3144), (3146, 3149),
   (3157, 3158), (3170, 3171), (3201, 3201), (3260, 3260), (3263, 3263), (3270, 3270),
   (3276, 3277), (3298, 3299), (3328, 3329), (3387, 3388), (3393, 3396), (3405, 3405),
   (3426, 3427), (3457, 3457), (3530, 3530), (3538, 3540), (3542, 3542), (3633, 3633),
   (3636, 3642), (3654, 3662), (3761, 3761), (3764, 3772), (3782, 3782), (3784, 3789),
   (3864, 3865), (3893, 3893), (3895, 3895), (3897, 3897), (3953, 3966), (3968, 3972),
   (3974, 3975), (3981, 3991), (3993, 4028), (4038, 4038), (4141, 4144), (4146, 4151),
   (4153, 4154), (4157, 4158), (4184, 4185), (4190, 4192), (4209, 4212), (4226, 4226),
   (4229, 4230), (4237, 4237), (4253, 4253), (4348, 4348), (4957, 4959), (5906, 5908),
   (5938, 5939), (5970, 5971), (6002, 6003), (6068, 6069), (6071, 6077), (6086, 6086),
   (6089, 6099), (6103, 6103), (6109, 6109), (6155, 6159), (6211, 6211), (6277, 6278),
   (6313, 6313), (6432, 6434), (6439, 6440), (6450, 6450), (6457, 6459), (6679, 6680),
   (6683, 6683), (6742, 6742), (6744, 6750), (6752, 6752), (6754, 6754), (6757, 6764),
   (6771, 6780), (6783, 6783), (6823, 6823), (6832, 6862), (6912, 6915), (6964, 6964),
   (6966, 6970), (6972, 6972), (6978, 6978), (7019, 7027), (7040, 7041), (7074, 7077),
   (7080, 7081), (7083, 7085), (7142, 7142), (7144, 7145), (7149, 7149), (7151, 7153),
   (7212, 7219), (7222, 7223), (7288, 7293), (7376, 7378), (7380, 7392), (7394, 7400),
   (7405, 7405), (7412, 7412), (7416, 7417), (7468, 7530), (7544, 7544), (7579, 7679),
   (8125, 8125), (8127, 8129), (8141, 8143), (8157, 8159), (8173, 8175), (8189, 8190),
   (8203, 8207), (8216, 8217), (8228, 8228), (8231, 8231), (8234, 8238), (8288, 8292),
   (8294, 8303), (8305, 8305), (8319, 8319), (8336, 8348), (8400, 8432), (11388, 11389),
   (11503, 11505), (11631, 11631), (11647, 11647), (11744, 11775), (11823, 11823), (12293, 12293),
   (12330, 12333), (12337, 12341), (12347, 12347), (12441, 12446), (12540, 12542), (40981, 40981),
   (42232, 42237), (42508, 42508), (42607, 42610), (42612, 42621), (42623, 42623), (42652, 42655),
   (42736, 42737), (42752, 42785), (42864, 42864), (42888, 42890), (42994, 42996), (43000, 43001),
   (43010, 43010), (43014, 43014), (43019, 43019), (43045, 43046), (43052, 43052), (43204, 43205),
   (43232, 43249), (43263, 43263), (43302, 43309), (43335, 43345), (43392, 43394), (43443, 43443),
   (43446, 43449), (43452, 43453), (43471, 43471), (43493, 43494), (43561, 43566), (43569, 43570),
   (43573, 43574), (43587, 43587), (43596, 43596), (43632, 43632), (43644, 43644), (43696, 43696),
   (43698, 43700), (43703, 43704), (43710, 43711), (43713, 43713), (43741, 43741), (43756, 43757),
   (43763, 43764), (43766, 43766), (43867, 43871), (43881, 43883), (44005, 44005), (44008, 44008),
   (44013, 44013), (64286, 64286), (64434, 64450), (65024, 65039), (65043, 65043), (65056, 65071),
   (65106, 65106), (65109, 65109), (65279, 65279), (65287, 65287), (65294, 65294), (65306, 65306),
   (65342, 65342), (65344, 65344), (65392, 65392), (65438, 65439), (65507, 65507), (65529, 65531),
   (66045, 66045), (66272, 66272), (66422, 66426), (67456, 67461), (67463, 67504), (67506, 67514),
   (68097, 68099), (68101, 68102), (68108, 68111), (68152, 68154), (68159, 68159), (68325, 68326),
   (68900, 68903), (69291, 69292), (69446, 69456), (69506, 69509), (69633, 69633), (69688, 69702),
   (69744, 69744), (69747, 69748), (69759, 69761), (69811, 69814), (69817, 69818), (69821, 69821),
   (69826, 69826), (69837, 69837), (69888, 69890), (69927, 69931), (69933, 69940), (70003, 70003),
   (70016, 70017), (70070, 70078), (70089, 70092), (70095, 70095), (70191, 70193), (70196, 70196),
   (70198, 70199), (70206, 70206), (70367, 70367), (70371, 70378), (70400, 70401), (70459, 70460),
   (70464, 70464), (70502, 70508), (70512, 70516), (70712, 70719), (70722, 70724), (70726, 70726),
   (70750, 70750), (70835, 70840), (70842, 70842), (70847, 70848), (70850, 70851), (71090, 71093),
   (71100, 71101), (71103, 71104), (71132, 71133), (71219, 71226), (71229, 71229), (71231, 71232),
   (71339, 71339), (71341, 71341), (71344, 71349), (71351, 71351), (71453, 71455), (71458, 71461),
   (71463, 71467), (71727, 71735), (71737, 71738), (71995, 71996), (71998, 71998), (72003, 72003),
   (72148, 72151), (72154, 72155), (72160, 72160), (72193, 72202), (72243, 72248), (72251, 72254),
   (72263, 72263), (72273, 72278), (72281, 72283), (72330, 72342), (72344, 72345), (72752, 72758),
   (72760, 72765), (72767, 72767), (72850, 72871), (72874, 72880), (72882, 72883), (72885, 72886),
   (73009, 73014), (73018, 73018), (73020, 73021), (73023, 73029), (73031, 73031), (73104, 73105),
   (73109, 73109), (73111, 73111), (73459, 73460), (78896, 78904), (92912, 92916), (92976, 92982),
   (92992, 92995), (94031, 94031), (94095, 94111), (94176, 94177), (94179, 94180), (110576, 110579),
   (110581, 110587), (110589, 110590), (113821, 113822), (113824, 113827), (118528, 118573), (118576, 118598),
   (119143, 119145), (119155, 119170), (119173, 119179), (119210, 119213), (119362, 119364), (121344, 121398),
   (121403, 121452), (121461, 121461), (121476, 121476), (121499, 121503), (121505, 121519), (122880, 122886),
   (122888, 122904), (122907, 122913), (122915, 122916), (122918, 122922), (123184, 123197), (123566, 123566),
   (123628, 123631), (125136, 125142), (125252, 125259), (127995, 127999), (917505, 917505), (917536, 917631),
   (917760, 917999)]

/-- Membership of a code point in a list of inclusive ranges. -/
def inRanges (n : Nat) : List (Nat × Nat) → Bool
  | [] => false
  | (lo, hi) :: rs => (lo ≤ n && n ≤ hi) || inRanges n rs

/-- Whether the Final_Sigma scans treat this character as cased. -/
def isCased (c : Char) : Bool := inRanges c.toNat casedRanges

/-- Whether the Final_Sigma scans skip this character. -/
def isCaseIgnorable (c : Char) : Bool := inRanges c.toNat ignorableRanges

/-- One character's Unicode lowercase as head and tail: the only expanding
lowercase mapping is dotted capital I (U+0130), which lowers to `i` followed
by combining dot above. -/
def lowerCharPair (n : Nat) : Char × List Char :=
  if n = 304 then (Char.ofNat 105, [Char.ofNat 775])
  else (Char.ofNat (simpleLowerNat n), [])

/-- Forward half of the Final_Sigma condition: skipping case-ignorable
characters, the text ends or continues with a non-cased character. -/
def forwardNotCased : List Char → Bool
  | [] => true
  | c :: cs => if isCaseIgnorable c then forwardNotCased cs else !(isCased c)

/-- Backward context update: a case-ignorable character keeps the previous
state, any other character records whether it is cased. -/
def contextUpdate (prev : Bool) (c : Char) : Bool :=
  if isCaseIgnorable c then prev else isCased c

/-- The lowering loop: capital sigma (U+03A3) in final position (a cased
character before it, none after, skipping case-ignorables on both sides)
becomes final sigma (U+03C2); every other character takes its Unicode
lowercase mapping. -/
def pyLowerGo : Bool → List Char → List Char
  | _, [] => []
  | prevCased, c :: cs =>
    if c.toNat = 931 ∧ prevCased = true ∧ forwardNotCased cs = true then
      Char.ofNat 962 :: pyLowerGo (contextUpdate prevCased c) cs
    else
      (lowerCharPair c.toNat).1 ::
        ((lowerCharPair c.toNat).2 ++ pyLowerGo (contextUpdate prevCased c) cs)

/-- Python `str.lower()`: Unicode default case conversion as CPython performs
it — the simple lowercase mappings of the Unicode character database, the
dotted-capital-I expansion, and the contextual Final_Sigma rule — as a
character list so that substring containment is list infixing. -/
def pyLower (s : String) : List Char := pyLowerGo false s.toList

/-- Whether `needle` is a prefix of `hay`. -/
def prefixEq : List Char → List Char → Bool
  | [], _ => true
  | _ :: _, [] => false
  | a :: as, b :: bs => a = b && prefixEq as bs

/-- Python's substring test `needle in hay` on character lists: `needle` is a
contiguous substring of `hay`. -/
def substrIn (needle : List Char) : List Char → Bool
  | [] => prefixEq needle []
  | b :: bs => prefixEq needle (b :: bs) || substrIn needle bs

/-- The comprehension's predicate source `SUBJECT.lower() in mail.get('subject','').lower()`
once both sides are strings: case-insensitive substring containment. -/
def containsLower (target subj : String) : Bool :=
  substrIn (pyLower target) (pyLower subj)

/-- Python `mail.get('subject','').lower()`: the subject string of a message
(defaulting to `""` when the key is absent), or the `AttributeError` raised
when `mail` is not a dict or the subject value is not a string. -/
def getSubject (mail : JValue) : Except String String :=
  match mail with
  | .obj fs =>
    match dictGet fs "subject" with
    | none => .ok ""
    | some (.str s) => .ok s
    | some _ => .error "AttributeError"
  | _ => .error "AttributeError"

/-- Line 183 of `test_mail_functions`: the list comprehension
`[mail for mail in mail_list if SUBJECT.lower() in mail.get('subject','').lower()]`,
evaluated left to right, raising at the first message on which the predicate
raises. -/
def localFilter (target : String) : List JValue → Except String (List JValue)
  | [] => .ok []
  | m :: ms =>
    match getSubject m with
    | .error e => .error e
    | .ok s =>
      match localFilter target ms with
      | .error e => .error e
      | .ok rest => .ok (if containsLower target s then m :: rest else rest)

/-- The comprehension's predicate as a total boolean function on messages (on
a message where the Python predicate would raise, the comprehension itself
raises, so the value is irrelevant; `false` is chosen). -/
def keeps (target : String) (m : JValue) : Bool :=
  match getSubject m with
  | .ok s => containsLower target s
  | .error _ => false

/-- The double-quote character. -/
def quoteChar : Char := Char.ofNat 34

/-- The backslash character. -/
def backslashChar : Char := Char.ofNat 92

/-- The opening-brace character. -/
def obraceChar : Char := Char.ofNat 123

/-- The closing-brace character. -/
def cbraceChar : Char := Char.ofNat 125

/-- A lowercase hexadecimal digit, as emitted inside a `\u00XX` escape. -/
def hexDigitChar (d : Nat) : Char :=
  if d < 10 then Char.ofNat (48 + d) else Char.ofNat (87 + d)

/-- How `json.dump` with `ensure_ascii=False` writes one character of a
string: `"` and the backslash get a two-character escape, the five named
control characters get their short escapes, the remaining characters below
`0x20` get `\u00XX`, and everything else — non-ASCII included — is written
verbatim. -/
def escapeChar (c : Char) : List Char :=
  if c = quoteChar then [backslashChar, quoteChar]
  else if c = backslashChar then [backslashChar, backslashChar]
  else if c = '\n' then [backslashChar, 'n']
  else if c = '\t' then [backslashChar, 't']
  else if c = '\r' then [backslashChar, 'r']
  else if c = Char.ofNat 8 then [backslashChar, 'b']
  else if c = Char.ofNat 12 then [backslashChar, 'f']
  else if c.toNat < 32 then
    [backslashChar, 'u', '0', '0', hexDigitChar (c.toNat / 16), hexDigitChar (c.toNat % 16)]
  else [c]

/-- `escapeChar` mapped over a character list. -/
def escapeList : List Char → List Char
  | [] => []
  | c :: cs => escapeChar c ++ escapeList cs

/-- A serialized JSON string: the escaped characters between double quotes. -/
def serStr (s : String) : List Char :=
  quoteChar :: (escapeList s.toList ++ [quoteChar])

/-- The decimal digits of a positive number, most significant first. -/
def natDigits (n : Nat) : List Char :=
  (Nat.digits 10 n).reverse.map (fun d => Char.ofNat (48 + d))

/-- The decimal rendering of a natural number (`"0"` for zero). -/
def serNat (n : Nat) : List Char :=
  if n = 0 then ['0'] else natDigits n

/-- How Python writes an `int`: an optional minus sign and decimal digits. -/
def serInt (n : Int) : List Char :=
  if n < 0 then '-' :: serNat n.natAbs else serNat n.toNat

/-- The newline-plus-indentation separator `json.dump` emits before an element
at nesting producing `ind` spaces. -/
def nlIndent (ind : Nat) : List Char :=
  '\n' :: List.replicate ind ' '

mutual

/-- The text `json.dump(v, f, ensure_ascii=False, indent=2)` writes for a
value at a nesting level currently indented by `ind` spaces. -/
def serValue (ind : Nat) : JValue → List Char
  | .null => 'n' :: ['u', 'l', 'l']
  | .bool true => 't' :: ['r', 'u', 'e']
  | .bool false => 'f' :: ['a', 'l', 's', 'e']
  | .num n => serInt n
  | .str s => serStr s
  | .arr [] => ['[', ']']
  | .arr (x :: xs) =>
    '[' :: (nlIndent (ind + 2) ++ serValue (ind + 2) x ++
      serArrItems (ind + 2) xs ++ nlIndent ind ++ [']'])
  | .obj [] => [obraceChar, cbraceChar]
  | .obj (kv :: kvs) =>
    obraceChar :: (nlIndent (ind + 2) ++ serMember (ind + 2) kv ++
      serObjItems (ind + 2) kvs ++ nlIndent ind ++ [cbraceChar])

/-- The remaining elements of an array: `,`, newline, indentation, element. -/
def serArrItems (ind : Nat) : List JValue → List Char
  | [] => []
  | x :: xs => ',' :: (nlIndent ind ++ serValue ind x ++ serArrItems ind xs)

/-- One object member: serialized key, `': '`, serialized value. -/
def serMember (ind : Nat) : String × JValue → List Char
  | (k, v) => serStr k ++ ':' :: ' ' :: serValue ind v

/-- The remaining members of an object. -/
def serObjItems (ind : Nat) : List (String × JValue) → List Char
  | [] => []
  | kv :: kvs => ',' :: (nlIndent ind ++ serMember ind kv ++ serObjItems ind kvs)

end

/-- `save_emails_to_json`: the text written to the file, namely
`json.dump(mail_list, f, ensure_ascii=False, indent=2)` of the list of
messages.  The timestamped filename synthesis and the file system are outside
the model. -/
def save_emails_to_json (mail_list : List JValue) : List Char :=
  serValue 0 (.arr mail_list)

/-- Whether a character is JSON whitespace (space, tab, newline, carriage
return). -/
def isWsChar (c : Char) : Bool :=
  c = ' ' || c = '\n' || c = '\t' || c = '\r'

/-- Modelled from the spec: re-reading the persisted file parses its JSON
text back into messages (`json.load`); the parser below accepts the grammar
fragment the client ever writes (strings with the escapes above, integers,
arrays, objects, literals, with interleaved whitespace).  `skipWs` drops
leading whitespace. -/
def skipWs : List Char → List Char
  | [] => []
  | c :: cs => if isWsChar c then skipWs cs else c :: cs

/-- The numeric value of a hexadecimal digit character, if it is one. -/
def hexVal (c : Char) : Option Nat :=
  if 48 ≤ c.toNat ∧ c.toNat ≤ 57 then some (c.toNat - 48)
  else if 97 ≤ c.toNat ∧ c.toNat ≤ 102 then some (c.toNat - 87)
  else if 65 ≤ c.toNat ∧ c.toNat ≤ 70 then some (c.toNat - 55)
  else none

/-- The unescaped character of a short escape `\X`, if `X` is one of the
recognized escape letters. -/
def unescapeChar (e : Char) : Option Char :=
  if e = quoteChar then some quoteChar
  else if e = backslashChar then some backslashChar
  else if e = '/' then some '/'
  else if e = 'n' then some '\n'
  else if e = 't' then some '\t'
  else if e = 'r' then some '\r'
  else if e = 'b' then some (Char.ofNat 8)
  else if e = 'f' then some (Char.ofNat 12)
  else none

/-- The body of a JSON string after the opening quote: the decoded characters
and the text following the closing quote. -/
def parseStrBody : List Char → Option (List Char × List Char)
  | [] => none
  | c :: cs =>
    if c = quoteChar then some ([], cs)
    else if c = backslashChar then
      match cs with
      | [] => none
      | e :: cs' =>
        if e = 'u' then
          match cs' with
          | h1 :: h2 :: h3 :: h4 :: cs'' =>
            match hexVal h1, hexVal h2, hexVal h3, hexVal h4 with
            | some a, some b, some x, some d =>
              match parseStrBody cs'' with
              | some (r, rest) =>
                some (Char.ofNat (4096 * a + 256 * b + 16 * x + d) :: r, rest)
              | none => none
            | _, _, _, _ => none
          | _ => none
        else
          match unescapeChar e with
          | some u =>
            match parseStrBody cs' with
            | some (r, rest) => some (u :: r, rest)
            | none => none
          | none => none
    else
      match parseStrBody cs with
      | some (r, rest) => some (c :: r, rest)
      | none => none

/-- Whether a character is a decimal digit. -/
def isDigitChar (c : Char) : Bool :=
  48 ≤ c.toNat && c.toNat ≤ 57

/-- The numeric value of a decimal digit character. -/
def digitVal (c : Char) : Nat := c.toNat - 48

/-- The maximal run of decimal digits, folded into a number left to right. -/
def parseNatLoop (acc : Nat) : List Char → Nat × List Char
  | [] => (acc, [])
  | c :: cs =>
    if isDigitChar c then parseNatLoop (10 * acc + digitVal c) cs
    else (acc, c :: cs)

/-- A JSON integer: an optional minus sign and at least one digit. -/
def parseNum : List Char → Option (Int × List Char)
  | [] => none
  | c :: cs =>
    if c = '-' then
      match cs with
      | [] => none
      | d :: ds =>
        if isDigitChar d then
          let r := parseNatLoop (digitVal d) ds
          some (-(Int.ofNat r.1), r.2)
        else none
    else if isDigitChar c then
      let r := parseNatLoop (digitVal c) cs
      some (Int.ofNat r.1, r.2)
    else none

/-- The literal characters `lit` dropped from the front of the input. -/
def dropLit : List Char → List Char → Option (List Char)
  | [], cs => some cs
  | _ :: _, [] => none
  | l :: ls, c :: cs => if c = l then dropLit ls cs else none

mutual

/-- One JSON value, fuel-bounded: leading whitespace, then a literal, string,
number, array or object, returning the value and the remaining text. -/
def parseVal : Nat → List Char → Option (JValue × List Char)
  | 0, _ => none
  | fuel + 1, input =>
    match skipWs input with
    | [] => none
    | c :: cs =>
      if c = 'n' then
        match dropLit ['u', 'l', 'l'] cs with
        | some rest => some (.null, rest)
        | none => none
      else if c = 't' then
        match dropLit ['r', 'u', 'e'] cs with
        | some rest => some (.bool true, rest)
        | none => none
      else if c = 'f' then
        match dropLit ['a', 'l', 's', 'e'] cs with
        | some rest => some (.bool false, rest)
        | none => none
      else if c = quoteChar then
        match parseStrBody cs with
        | some (chars, rest) => some (.str ⟨chars⟩, rest)
        | none => none
      else if c = '[' then
        match skipWs cs with
        | [] => none
        | c2 :: cs2 =>
          if c2 = ']' then some (.arr [], cs2)
          else
            match parseVal fuel (c2 :: cs2) with
            | some (v, rest) =>
              match parseArrTail fuel rest with
              | some (vs, rest2) => some (.arr (v :: vs), rest2)
              | none => none
            | none => none
      else if c = obraceChar then
        match skipWs cs with
        | [] => none
        | c2 :: cs2 =>
          if c2 = cbraceChar then some (.obj [], cs2)
          else
            match parseMember fuel (c2 :: cs2) with
            | some (kv, rest) =>
              match parseObjTail fuel rest with
              | some (kvs, rest2) => some (.obj (kv :: kvs), rest2)
              | none => none
            | none => none
      else
        match parseNum (c :: cs) with
        | some (n, rest) => some (.num n, rest)
        | none => none

/-- After one array element: `]` closes the array, `,` introduces the next
element. -/
def parseArrTail : Nat → List Char → Option (List JValue × List Char)
  | 0, _ => none
  | fuel + 1, input =>
    match skipWs input with
    | [] => none
    | c :: cs =>
      if c = ']' then some ([], cs)
      else if c = ',' then
        match parseVal fuel cs with
        | some (v, rest) =>
          match parseArrTail fuel rest with
          | some (vs, rest2) => some (v :: vs, rest2)
          | none => none
        | none => none
      else none

/-- One object member: a string key, `:`, and a value. -/
def parseMember : Nat → List Char → Option ((String × JValue) × List Char)
  | 0, _ => none
  | fuel + 1, input =>
    match skipWs input with
    | [] => none
    | c :: cs =>
      if c = quoteChar then
        match parseStrBody cs with
        | some (kchars, rest) =>
          match skipWs rest with
          | [] => none
          | c2 :: cs2 =>
            if c2 = ':' then
              match parseVal fuel cs2 with
              | some (v, rest2) => some ((⟨kchars⟩, v), rest2)
              | none => none
            else none
        | none => none
      else none

/-- After one object member: the closing brace ends the object, `,`
introduces the next member. -/
def parseObjTail : Nat → List Char → Option (List (String × JValue) × List Char)
  | 0, _ => none
  | fuel + 1, input =>
    match skipWs input with
    | [] => none
    | c :: cs =>
      if c = cbraceChar then some ([], cs)
      else if c = ',' then
        match parseMember fuel cs with
        | some (kv, rest) =>
          match parseObjTail fuel rest with
          | some (kvs, rest2) => some (kv :: kvs, rest2)
          | none => none
        | none => none
      else none

end

/-- Modelled from the spec: deserializing the written UTF-8 JSON text
(`json.load` on the persisted file) — one JSON value followed only by
whitespace. -/
def parseJson (s : List Char) : Option JValue :=
  match parseVal (s.length + 1) s with
  | some (v, rest) => if skipWs rest = [] then some v else none
  | none => none

mutual

/-- Fuel sufficient for `parseVal` on a serialized value. -/
def sizeV : JValue → Nat
  | .null => 1
  | .bool _ => 1
  | .num _ => 1
  | .str _ => 1
  | .arr xs => 1 + sizeItems xs
  | .obj kvs => 1 + sizeMembers kvs

/-- Fuel sufficient for `parseArrTail` on serialized remaining elements. -/
def sizeItems : List JValue → Nat
  | [] => 1
  | x :: xs => 1 + sizeV x + sizeItems xs

/-- Fuel sufficient for `parseObjTail` on serialized remaining members. -/
def sizeMembers : List (String × JValue) → Nat
  | [] => 1
  | kv :: kvs => 2 + sizeV kv.2 + sizeMembers kvs

end

/-- The text following a serialized number may not begin with a digit
(otherwise the maximal-run scanner would read past the number's end); the
serializer always follows a value with `,`, a newline, a closing bracket or
nothing. -/
def goodTail : List Char → Prop
  | [] => True
  | c :: _ => isDigitChar c = false

/-! ## Theorems about the client -/

/-- C1: with a falsy (unset) token, `get_mail_list` fails fast: for every
argument combination and every conceivable transport behaviour it returns the
`code = -1` dict with the authentication-required message, leaves the state
unchanged, and transmits no request. -/
theorem c1_no_token_fails_fast (st : EmailAPI) (a : MailArgs)
    (outcome : HttpOutcome) (h : truthy st.token = false) :
    EmailAPI.get_mail_list st a outcome =
      (.obj [("code", .num (-1)), ("message", .str noTokenMessage)], st, []) := by
  simp [EmailAPI.get_mail_list, h]

/-- Witness for C1 at a concrete fresh client (token `None`), concrete
arguments and a concrete transport. -/
theorem c1_no_token_fails_fast_witness :
    EmailAPI.get_mail_list ⟨"https://mail.example", .null⟩
        ⟨"a@b.c", none, none, none, none, "desc", 0, 1, 20⟩ (.exc "boom") =
      (.obj [("code", .num (-1)), ("message", .str noTokenMessage)],
        ⟨"https://mail.example", .null⟩, []) :=
  c1_no_token_fails_fast _ _ _ rfl

/-- C2: the transmitted `size` field is `min(size, 20)`: it never exceeds 20,
a requested 50 is transmitted as 20, and a requested size of at most 20 is
transmitted unchanged. -/
theorem c2_size_clamped (a : MailArgs) :
    dictGet (mailListPayload a) "size" = some (.num (min a.size 20)) ∧
    (∀ z : Int, dictGet (mailListPayload a) "size" = some (.num z) → z ≤ 20) ∧
    (a.size = 50 → dictGet (mailListPayload a) "size" = some (.num 20)) ∧
    (a.size ≤ 20 → dictGet (mailListPayload a) "size" = some (.num a.size)) := by
  have hsize : dictGet (mailListPayload a) "size" = some (.num (min a.size 20)) := by
    simp [mailListPayload, dictGet]
  refine ⟨hsize, ?_, ?_, ?_⟩
  · intro z hz
    rw [hsize] at hz
    cases hz
    exact min_le_right _ _
  · intro h50
    rw [hsize, h50]
    norm_num
  · intro hle
    rw [hsize, min_eq_left hle]

/-- Witness for C2 at concrete argument records with `size = 50` and
`size = 7`. -/
theorem c2_size_clamped_witness :
    dictGet (mailListPayload ⟨"a@b.c", none, none, none, none, "desc", 0, 1, 50⟩)
        "size" = some (.num 20) ∧
    dictGet (mailListPayload ⟨"a@b.c", none, none, none, none, "desc", 0, 1, 7⟩)
        "size" = some (.num 7) :=
  ⟨(c2_size_clamped ⟨"a@b.c", none, none, none, none, "desc", 0, 1, 50⟩).2.2.1 rfl,
   (c2_size_clamped ⟨"a@b.c", none, none, none, none, "desc", 0, 1, 7⟩).2.2.2 (by norm_num)⟩

/-- Looking a key up past a block that does not contain it. -/
theorem dictGet_append_none (xs ys : List (String × JValue)) (k : String)
    (h : dictGet xs k = none) : dictGet (xs ++ ys) k = dictGet ys k := by
  induction xs with
  | nil => rfl
  | cons p rest ih =>
    obtain ⟨k', v⟩ := p
    by_cases hk : k' = k
    · simp [dictGet, hk] at h
    · simp only [List.cons_append, dictGet, if_neg hk] at h ⊢
      exact ih h

/-- Looking a key up that the first block already contains. -/
theorem dictGet_append_of_some (xs ys : List (String × JValue)) (k : String)
    (v : JValue) (h : dictGet xs k = some v) : dictGet (xs ++ ys) k = some v := by
  induction xs with
  | nil => simp [dictGet] at h
  | cons p rest ih =>
    obtain ⟨k', w⟩ := p
    by_cases hk : k' = k
    · simp only [dictGet, if_pos hk] at h
      simp only [List.cons_append, dictGet, if_pos hk]
      exact h
    · simp only [dictGet, if_neg hk] at h
      simp only [List.cons_append, dictGet, if_neg hk]
      exact ih h

/-- An optional payload entry holds no key other than its own. -/
theorem dictGet_optField_ne (k k' : String) (v : Option String) (h : k' ≠ k) :
    dictGet (optField k' v) k = none := by
  cases v with
  | none => rfl
  | some s => by_cases he : s.isEmpty <;> simp [optField, he, dictGet, h]

/-- At the front of the remaining payload, an optional entry's key is present
exactly when the supplied argument was truthy. -/
theorem hasKey_optField_front (k : String) (v : Option String)
    (ys : List (String × JValue)) (hrest : dictGet ys k = none) :
    hasKey (optField k v ++ ys) k = optStrTruthy v := by
  cases v with
  | none => simp [optField, optStrTruthy, hasKey, hrest]
  | some s =>
    by_cases he : s.isEmpty <;>
      simp [optField, optStrTruthy, he, hasKey, dictGet, hrest]

/-- The supplied-non-empty condition of the spec, as the truthiness test the
code performs. -/
theorem optStrTruthy_iff (v : Option String) :
    optStrTruthy v = true ↔ ∃ s, v = some s ∧ s ≠ "" := by
  cases v with
  | none => simp [optStrTruthy]
  | some s =>
    simp only [optStrTruthy, Bool.not_eq_true', Option.some.injEq]
    constructor
    · intro h
      exact ⟨s, rfl, by simpa [← String.isEmpty_iff] using h⟩
    · rintro ⟨s', rfl, hs⟩
      simpa [← String.isEmpty_iff] using hs

/-- C7: each optional filter key is transmitted exactly when the caller
supplied a non-empty value for it, and the five required keys are always
transmitted. -/
theorem c7_payload_keys (a : MailArgs) :
    (hasKey (mailListPayload a) "sendName" = true ↔
      ∃ s, a.send_name = some s ∧ s ≠ "") ∧
    (hasKey (mailListPayload a) "sendEmail" = true ↔
      ∃ s, a.send_email = some s ∧ s ≠ "") ∧
    (hasKey (mailListPayload a) "subject" = true ↔
      ∃ s, a.subject = some s ∧ s ≠ "") ∧
    (hasKey (mailListPayload a) "content" = true ↔
      ∃ s, a.content = some s ∧ s ≠ "") ∧
    hasKey (mailListPayload a) "toEmail" = true ∧
    hasKey (mailListPayload a) "timeSort" = true ∧
    hasKey (mailListPayload a) "type" = true ∧
    hasKey (mailListPayload a) "num" = true ∧
    hasKey (mailListPayload a) "size" = true := by
  have hsplit : mailListPayload a =
      [("toEmail", .str a.hd_email), ("timeSort", .str a.send_sort),
       ("type", .num a.mail_type), ("num", .num a.num),
       ("size", .num (min a.size 20))] ++
      (optField "sendName" a.send_name ++
        (optField "sendEmail" a.send_email ++
          (optField "subject" a.subject ++ optField "content" a.content))) := by
    simp [mailListPayload, List.append_assoc]
  refine ⟨?_, ?_, ?_, ?_, ?_, ?_, ?_, ?_, ?_⟩
  · rw [← optStrTruthy_iff]
    have hkey : hasKey (mailListPayload a) "sendName" =
        optStrTruthy a.send_name := by
      rw [hasKey, hsplit, dictGet_append_none _ _ _ (by simp [dictGet]),
        ← hasKey, hasKey_optField_front _ _ _ (by
          rw [dictGet_append_none _ _ _ (dictGet_optField_ne _ _ a.send_email
              (by decide)),
            dictGet_append_none _ _ _ (dictGet_optField_ne _ _ a.subject
              (by decide)),
            dictGet_optField_ne _ _ a.content (by decide)])]
    rw [hkey]
  · rw [← optStrTruthy_iff]
    have hkey : hasKey (mailListPayload a) "sendEmail" =
        optStrTruthy a.send_email := by
      rw [hasKey, hsplit, dictGet_append_none _ _ _ (by simp [dictGet]),
        dictGet_append_none _ _ _ (dictGet_optField_ne _ _ a.send_name
          (by decide)), ← hasKey,
        hasKey_optField_front _ _ _ (by
          rw [dictGet_append_none _ _ _ (dictGet_optField_ne _ _ a.subject
              (by decide)),
            dictGet_optField_ne _ _ a.content (by decide)])]
    rw [hkey]
  · rw [← optStrTruthy_iff]
    have hkey : hasKey (mailListPayload a) "subject" =
        optStrTruthy a.subject := by
      rw [hasKey, hsplit, dictGet_append_none _ _ _ (by simp [dictGet]),
        dictGet_append_none _ _ _ (dictGet_optField_ne _ _ a.send_name
          (by decide)),
        dictGet_append_none _ _ _ (dictGet_optField_ne _ _ a.send_email
          (by decide)), ← hasKey,
        hasKey_optField_front _ _ _ (dictGet_optField_ne _ _ a.content
          (by decide))]
    rw [hkey]
  · rw [← optStrTruthy_iff]
    have hkey : hasKey (mailListPayload a) "content" =
        optStrTruthy a.content := by
      rw [hasKey, hsplit, dictGet_append_none _ _ _ (by simp [dictGet]),
        dictGet_append_none _ _ _ (dictGet_optField_ne _ _ a.send_name
          (by decide)),
        dictGet_append_none _ _ _ (dictGet_optField_ne _ _ a.send_email
          (by decide)),
        dictGet_append_none _ _ _ (dictGet_optField_ne _ _ a.subject
          (by decide)), ← hasKey]
      have : (optField "content" a.content : List (String × JValue)) =
          optField "content" a.content ++ [] := by simp
      rw [this, hasKey_optField_front "content" a.content [] rfl]
    rw [hkey]
  · rw [hasKey, hsplit,
      dictGet_append_of_some _ _ _ (.str a.hd_email) (by simp [dictGet])]
    rfl
  · rw [hasKey, hsplit,
      dictGet_append_of_some _ _ _ (.str a.send_sort) (by simp [dictGet])]
    rfl
  · rw [hasKey, hsplit,
      dictGet_append_of_some _ _ _ (.num a.mail_type) (by simp [dictGet])]
    rfl
  · rw [hasKey, hsplit,
      dictGet_append_of_some _ _ _ (.num a.num) (by simp [dictGet])]
    rfl
  · rw [hasKey, hsplit,
      dictGet_append_of_some _ _ _ (.num (min a.size 20)) (by simp [dictGet])]
    rfl

/-- C9: `get_mail_list` never touches the object state — token and base_url
are returned exactly as they were, on every path; and `get_token` keeps
`base_url` untouched and rewrites the token only when the parsed body is a
dict whose embedded `code` equals `200`. -/
theorem c9_frame :
    (∀ (st : EmailAPI) (a : MailArgs) (outcome : HttpOutcome),
      (EmailAPI.get_mail_list st a outcome).2.1 = st) ∧
    (∀ (st : EmailAPI) (email password : String) (outcome : HttpOutcome),
      (EmailAPI.get_token st email password outcome).2.1.base_url =
        st.base_url) ∧
    (∀ (st : EmailAPI) (email password : String) (outcome : HttpOutcome),
      (EmailAPI.get_token st email password outcome).2.1.token = st.token ∨
      ∃ status fs, outcome = .resp status (.ok (.obj fs)) ∧
        isCode200 (dictGet fs "code") = true) := by
  refine ⟨?_, ?_, ?_⟩
  · intro st a outcome
    rcases outcome with e | ⟨status, body⟩
    · by_cases h : truthy st.token = false <;>
        simp [EmailAPI.get_mail_list, h]
    · by_cases h : truthy st.token = false
      · simp [EmailAPI.get_mail_list, h]
      · rcases body with e | data <;>
          by_cases hs : 400 ≤ status ∧ status < 600 <;>
          simp [EmailAPI.get_mail_list, h, hs]
  · intro st email password outcome
    rcases outcome with e | ⟨status, body⟩
    · rfl
    · rcases body with e | data
      · rfl
      · cases data with
        | obj fs =>
          by_cases hc : isCode200 (dictGet fs "code") = true
          · cases hd : (dictGet fs "data").getD (.obj []) <;>
              simp [EmailAPI.get_token, hc, hd]
          · simp [EmailAPI.get_token, hc]
        | null => rfl
        | bool b => rfl
        | num n => rfl
        | str s => rfl
        | arr xs => rfl
  · intro st email password outcome
    rcases outcome with e | ⟨status, body⟩
    · exact Or.inl rfl
    · rcases body with e | data
      · exact Or.inl rfl
      · cases data with
        | obj fs =>
          by_cases hc : isCode200 (dictGet fs "code") = true
          · exact Or.inr ⟨status, fs, rfl, hc⟩
          · cases hd : (dictGet fs "data").getD (.obj []) <;>
              simp [EmailAPI.get_token, hc, hd]
        | null => exact Or.inl rfl
        | bool b => exact Or.inl rfl
        | num n => exact Or.inl rfl
        | str s => exact Or.inl rfl
        | arr xs => exact Or.inl rfl

/-- C5: when the parsed token-issuance body is a dict with embedded
`code = 200` and `data.token = t`, `get_token` stores exactly `t` as the
session token and returns the body unchanged — whatever the transport status
was (the method never consults it). -/
theorem c5_token_stored (st : EmailAPI) (email password t : String)
    (status : Nat) (fs dfs : List (String × JValue))
    (hcode : dictGet fs "code" = some (.num 200))
    (hdata : dictGet fs "data" = some (.obj dfs))
    (htok : dictGet dfs "token" = some (.str t)) :
    EmailAPI.get_token st email password (.resp status (.ok (.obj fs))) =
      (.obj fs, { st with token := .str t },
        [tokenPayload email password]) := by
  simp [EmailAPI.get_token, isCode200, hcode, hdata, htok]

/-- Witness for C5: a concrete `code = 200` response carrying token `"T"`;
the stored token is exactly `"T"`, for two different transport statuses. -/
theorem c5_token_stored_witness :
    (EmailAPI.get_token ⟨"u", .null⟩ "e@x.y" "pw"
        (.resp 200 (.ok (.obj [("code", .num 200),
          ("data", .obj [("token", .str "T")])]))) =
      (.obj [("code", .num 200), ("data", .obj [("token", .str "T")])],
        ⟨"u", .str "T"⟩, [tokenPayload "e@x.y" "pw"])) ∧
    (EmailAPI.get_token ⟨"u", .null⟩ "e@x.y" "pw"
        (.resp 500 (.ok (.obj [("code", .num 200),
          ("data", .obj [("token", .str "T")])]))) =
      (.obj [("code", .num 200), ("data", .obj [("token", .str "T")])],
        ⟨"u", .str "T"⟩, [tokenPayload "e@x.y" "pw"])) :=
  ⟨c5_token_stored ⟨"u", .null⟩ "e@x.y" "pw" "T" 200 _ _ rfl rfl rfl,
   c5_token_stored ⟨"u", .null⟩ "e@x.y" "pw" "T" 500 _ _ rfl rfl rfl⟩

/-- C6: on a parsed body whose embedded `code` is not `200`, `get_token`
returns that body unchanged (so the caller sees the server-supplied
`message`), leaves the token exactly as it was, and transmits exactly one
request — no retry; on a transport exception it returns the `code = -1` dict
carrying the exception text, again leaving the state unchanged after exactly
one attempt. -/
theorem c6_token_failure (st : EmailAPI) (email password : String)
    (status : Nat) (fs : List (String × JValue)) (e : String)
    (hcode : isCode200 (dictGet fs "code") = false) :
    EmailAPI.get_token st email password (.resp status (.ok (.obj fs))) =
      (.obj fs, st, [tokenPayload email password]) ∧
    EmailAPI.get_token st email password (.exc e) =
      (errDict e, st, [tokenPayload email password]) := by
  constructor
  · simp [EmailAPI.get_token, hcode]
  · rfl

/-- Witness for C6: a concrete `code = 401` body with message
`"bad credentials"` comes back verbatim with the state untouched, and a
concrete transport exception produces the `code = -1` dict with the exception
text; both transmit exactly one request. -/
theorem c6_token_failure_witness :
    EmailAPI.get_token ⟨"u", .null⟩ "e@x.y" "pw"
        (.resp 200 (.ok (.obj [("code", .num 401),
          ("message", .str "bad credentials")]))) =
      (.obj [("code", .num 401), ("message", .str "bad credentials")],
        ⟨"u", .null⟩, [tokenPayload "e@x.y" "pw"]) ∧
    EmailAPI.get_token ⟨"u", .null⟩ "e@x.y" "pw" (.exc "connection refused") =
      (errDict "connection refused", ⟨"u", .null⟩,
        [tokenPayload "e@x.y" "pw"]) :=
  c6_token_failure ⟨"u", .null⟩ "e@x.y" "pw" 200 _ "connection refused" rfl

/-- C3: whether a successful response carries its messages bare
(`data = [...]`) or wrapped (`data = {"list": [...]}`), the client extracts
the same flat ordered message sequence. -/
theorem c3_dual_shape (fs gs wrap : List (String × JValue)) (ms : List JValue)
    (hbare : dictGet fs "data" = some (.arr ms))
    (hwrapped : dictGet gs "data" = some (.obj wrap))
    (hlist : dictGet wrap "list" = some (.arr ms)) :
    extract_mail_list (.obj fs) = .ok (.arr ms) ∧
    extract_mail_list (.obj gs) = .ok (.arr ms) ∧
    extract_mail_list (.obj fs) = extract_mail_list (.obj gs) := by
  have h1 : extract_mail_list (.obj fs) = .ok (.arr ms) := by
    simp [extract_mail_list, hbare]
  have h2 : extract_mail_list (.obj gs) = .ok (.arr ms) := by
    simp [extract_mail_list, hwrapped, hlist]
  exact ⟨h1, h2, h1.trans h2.symm⟩

/-- Witness for C3: the spec's example `data = [{"subject": "A"}]` versus
`data = {"list": [{"subject": "A"}]}` produce the identical flat sequence. -/
theorem c3_dual_shape_witness :
    extract_mail_list (.obj [("code", .num 200),
        ("data", .arr [.obj [("subject", .str "A")]])]) =
      .ok (.arr [.obj [("subject", .str "A")]]) ∧
    extract_mail_list (.obj [("code", .num 200),
        ("data", .obj [("list", .arr [.obj [("subject", .str "A")]])])]) =
      .ok (.arr [.obj [("subject", .str "A")]]) ∧
    extract_mail_list (.obj [("code", .num 200),
        ("data", .arr [.obj [("subject", .str "A")]])]) =
      extract_mail_list (.obj [("code", .num 200),
        ("data", .obj [("list", .arr [.obj [("subject", .str "A")]])])]) :=
  c3_dual_shape _ _ _ [.obj [("subject", .str "A")]] rfl rfl rfl

/-- A nonempty string has a nonempty character list. -/
theorem toList_ne_nil (s : String) (h : s ≠ "") : s.toList ≠ [] := by
  intro hnil
  apply h
  cases s with
  | mk data =>
    cases data with
    | nil => rfl
    | cons c cs => cases hnil

/-- The lowering loop maps a nonempty text to a nonempty text. -/
theorem pyLowerGo_cons_ne_nil (prev : Bool) (c : Char) (cs : List Char) :
    pyLowerGo prev (c :: cs) ≠ [] := by
  rw [pyLowerGo]
  split
  · simp
  · simp

/-- Python lowering maps a nonempty string to a nonempty text. -/
theorem pyLower_ne_nil (s : String) (h : s ≠ "") : pyLower s ≠ [] := by
  cases hl : s.toList with
  | nil => exact absurd hl (toList_ne_nil s h)
  | cons c cs =>
    rw [pyLower, hl]
    exact pyLowerGo_cons_ne_nil false c cs

/-- The comprehension, when it completes without raising, is exactly
`List.filter` of its predicate. -/
theorem localFilter_ok_eq_filter (target : String) (ms l : List JValue)
    (h : localFilter target ms = .ok l) : l = ms.filter (keeps target) := by
  induction ms generalizing l with
  | nil =>
    simp only [localFilter, Except.ok.injEq] at h
    simp [← h]
  | cons m ms ih =>
    unfold localFilter at h
    cases hs : getSubject m with
    | error e => rw [hs] at h; cases h
    | ok s =>
      rw [hs] at h
      cases hr : localFilter target ms with
      | error e => rw [hr] at h; cases h
      | ok rest =>
        rw [hr] at h
        simp only [Except.ok.injEq] at h
        rw [← h, List.filter_cons, ← ih rest hr]
        have hk : keeps target m = containsLower target s := by
          simp [keeps, hs]
        rw [hk]

/-- C4: for a non-empty target, when the local filter completes it keeps
exactly those fetched messages whose subject contains the target
case-insensitively, in their original order (the result is `List.filter` of
the containment predicate, hence a sublist, with membership characterized by
the predicate). -/
theorem c4_local_filter (target : String) (ms l : List JValue)
    (hne : target ≠ "") (h : localFilter target ms = .ok l) :
    l = ms.filter (keeps target) ∧ l.Sublist ms ∧
    (∀ m, m ∈ l ↔ m ∈ ms ∧ keeps target m = true) := by
  have heq := localFilter_ok_eq_filter target ms l h
  refine ⟨heq, heq ▸ List.filter_sublist ms, ?_⟩
  intro m
  rw [heq, List.mem_filter]

/-- Witness for C4: the spec's example — subjects "Verify Your Email",
"VERIFY your email now", "Unrelated" with target "verify your email" keep
exactly the first two, in order — and a Cyrillic target (the filter's
documented use case) matching an uppercase Cyrillic subject. -/
theorem c4_local_filter_witness :
    localFilter "verify your email"
        [.obj [("subject", .str "Verify Your Email")],
         .obj [("subject", .str "VERIFY your email now")],
         .obj [("subject", .str "Unrelated")]] =
      .ok [.obj [("subject", .str "Verify Your Email")],
           .obj [("subject", .str "VERIFY your email now")]] ∧
    [JValue.obj [("subject", .str "Verify Your Email")],
     JValue.obj [("subject", .str "VERIFY your email now")]] =
      List.filter (keeps "verify your email")
        [.obj [("subject", .str "Verify Your Email")],
         .obj [("subject", .str "VERIFY your email now")],
         .obj [("subject", .str "Unrelated")]] ∧
    localFilter "привет"
        [.obj [("subject", .str "Вот ПРИВЕТ мир")],
         .obj [("subject", .str "Unrelated")]] =
      .ok [.obj [("subject", .str "Вот ПРИВЕТ мир")]] ∧
    [JValue.obj [("subject", .str "Вот ПРИВЕТ мир")]] =
      List.filter (keeps "привет")
        [.obj [("subject", .str "Вот ПРИВЕТ мир")],
         .obj [("subject", .str "Unrelated")]] :=
  ⟨rfl,
   (c4_local_filter "verify your email"
     [.obj [("subject", .str "Verify Your Email")],
      .obj [("subject", .str "VERIFY your email now")],
      .obj [("subject", .str "Unrelated")]]
     [.obj [("subject", .str "Verify Your Email")],
      .obj [("subject", .str "VERIFY your email now")]]
     (by decide) rfl).1,
   rfl,
   (c4_local_filter "привет"
     [.obj [("subject", .str "Вот ПРИВЕТ мир")],
      .obj [("subject", .str "Unrelated")]]
     [.obj [("subject", .str "Вот ПРИВЕТ мир")]]
     (by decide) rfl).1⟩

/-- C10: with a non-empty target, a message that is a dict without a
`subject` key is never in the filtered sequence: its defaulted subject `""`
cannot contain the non-empty target. -/
theorem c10_no_subject_excluded (target : String) (ms l : List JValue)
    (fs : List (String × JValue)) (hne : target ≠ "")
    (h : localFilter target ms = .ok l)
    (hnosubj : dictGet fs "subject" = none) :
    JValue.obj fs ∉ l := by
  have heq := localFilter_ok_eq_filter target ms l h
  rw [heq, List.mem_filter]
  rintro ⟨-, hk⟩
  have hsub : getSubject (.obj fs) = .ok "" := by
    simp [getSubject, hnosubj]
  have hk' : containsLower target "" = true := by
    simpa [keeps, hsub] using hk
  have hlist : pyLower target ≠ [] := pyLower_ne_nil target hne
  have hempty : pyLower "" = [] := rfl
  cases hpt : pyLower target with
  | nil => exact hlist hpt
  | cons c cs =>
    rw [containsLower, hpt, hempty] at hk'
    simp [substrIn, prefixEq] at hk'

/-- Witness for C10: with target `"x"`, the subject-less message `{}` is not
in the filtered result of a list containing it. -/
theorem c10_no_subject_excluded_witness :
    JValue.obj [] ∉ [JValue.obj [("subject", JValue.str "x")]] :=
  c10_no_subject_excluded "x"
    [.obj [("subject", .str "x")], .obj []]
    [.obj [("subject", .str "x")]] []
    (by decide) rfl rfl

/-- Leading spaces are skipped. -/
theorem skipWs_replicate (n : Nat) (rest : List Char) :
    skipWs (List.replicate n ' ' ++ rest) = skipWs rest := by
  induction n with
  | zero => rfl
  | succ n ih => simpa [List.replicate_succ, skipWs, isWsChar] using ih

/-- A newline-plus-indentation separator is skipped entirely. -/
theorem skipWs_nlIndent (ind : Nat) (rest : List Char) :
    skipWs (nlIndent ind ++ rest) = skipWs rest := by
  simpa [nlIndent, skipWs, isWsChar] using skipWs_replicate ind rest

/-- Input beginning with a non-whitespace character is left alone. -/
theorem skipWs_cons (c : Char) (cs : List Char) (h : isWsChar c = false) :
    skipWs (c :: cs) = c :: cs := by
  simp [skipWs, h]

/-- A decimal digit character is not whitespace, none of the parser's
dispatch characters, and not a minus sign. -/
theorem isDigit_props (c : Char) (h : isDigitChar c = true) :
    isWsChar c = false ∧ c ≠ 'n' ∧ c ≠ 't' ∧ c ≠ 'f' ∧ c ≠ quoteChar ∧
      c ≠ '[' ∧ c ≠ obraceChar ∧ c ≠ '-' := by
  simp only [isDigitChar, Bool.and_eq_true, decide_eq_true_eq] at h
  obtain ⟨h1, h2⟩ := h
  have hne : ∀ d : Char, d.toNat < 48 ∨ 57 < d.toNat → c ≠ d := by
    intro d hd he
    subst he
    omega
  have w1 : c ≠ ' ' := hne ' ' (by decide)
  have w2 : c ≠ '\n' := hne '\n' (by decide)
  have w3 : c ≠ '\t' := hne '\t' (by decide)
  have w4 : c ≠ '\r' := hne '\r' (by decide)
  exact ⟨by simp [isWsChar, w1, w2, w3, w4], hne 'n' (by decide),
    hne 't' (by decide), hne 'f' (by decide), hne quoteChar (by decide),
    hne '[' (by decide), hne obraceChar (by decide), hne '-' (by decide)⟩

/-- The character of a digit below ten is a digit character and decodes back
to the digit. -/
theorem digit_char_spec (d : Nat) (hd : d < 10) :
    isDigitChar (Char.ofNat (48 + d)) = true ∧
      digitVal (Char.ofNat (48 + d)) = d := by
  interval_cases d <;> exact ⟨by decide, by decide⟩

/-- The maximal digit run consumes exactly a block of digit characters when
the following text does not begin with a digit. -/
theorem parseNatLoop_digits (ds : List Char) (rest : List Char) (acc : Nat)
    (hds : ∀ c ∈ ds, isDigitChar c = true) (hrest : goodTail rest) :
    parseNatLoop acc (ds ++ rest) =
      (ds.foldl (fun a c => 10 * a + digitVal c) acc, rest) := by
  induction ds generalizing acc with
  | nil =>
    cases rest with
    | nil => rfl
    | cons c cs =>
      have : isDigitChar c = false := hrest
      simp [parseNatLoop, this]
  | cons d ds ih =>
    have hd : isDigitChar d = true := hds d (by simp)
    simp only [List.cons_append, parseNatLoop, hd, if_pos, List.foldl_cons]
    exact ih _ (fun c hc => hds c (by simp [hc]))

/-- Folding digit characters is folding the digits. -/
theorem foldl_map_digitChar (l : List Nat) (acc : Nat)
    (hl : ∀ d ∈ l, d < 10) :
    (l.map (fun d => Char.ofNat (48 + d))).foldl
        (fun a c => 10 * a + digitVal c) acc =
      l.foldl (fun a d => 10 * a + d) acc := by
  induction l generalizing acc with
  | nil => rfl
  | cons d ds ih =>
    have hd := (digit_char_spec d (hl d (by simp))).2
    simp only [List.map_cons, List.foldl_cons, hd]
    exact ih _ (fun e he => hl e (by simp [he]))

/-- Folding a big-endian digit list is the little-endian `Nat.ofDigits`. -/
theorem foldl_reverse_ofDigits (l : List Nat) (acc : Nat) :
    l.reverse.foldl (fun a d => 10 * a + d) acc =
      acc * 10 ^ l.length + Nat.ofDigits 10 l := by
  induction l generalizing acc with
  | nil => simp
  | cons d ds ih =>
    simp only [List.reverse_cons, List.foldl_append, ih, List.foldl_cons,
      List.foldl_nil, List.length_cons, Nat.ofDigits_cons, pow_succ]
    ring

/-- The decimal rendering of `m` begins with a digit and scans back to `m`. -/
theorem serNat_parse (m : Nat) (rest : List Char) (hrest : goodTail rest) :
    ∃ d ds, serNat m = d :: ds ∧ isDigitChar d = true ∧
      parseNatLoop (digitVal d) (ds ++ rest) = (m, rest) := by
  by_cases hm : m = 0
  · subst hm
    refine ⟨'0', [], rfl, by decide, ?_⟩
    have h0 : digitVal '0' = 0 := by decide
    rw [h0]
    cases rest with
    | nil => rfl
    | cons c cs =>
      have : isDigitChar c = false := hrest
      simp [parseNatLoop, this]
  · have hnil : (Nat.digits 10 m).reverse ≠ [] := by
      simp [Nat.digits_ne_nil_iff_ne_zero, hm]
    obtain ⟨d0, rl, hrev⟩ := List.exists_cons_of_ne_nil hnil
    have hmem : ∀ e ∈ Nat.digits 10 m, e < 10 := fun e he =>
      Nat.digits_lt_base (by norm_num) he
    have hd0 : d0 < 10 := by
      apply hmem
      rw [← List.mem_reverse, hrev]
      simp
    have hrl : ∀ e ∈ rl, e < 10 := by
      intro e he
      apply hmem
      rw [← List.mem_reverse, hrev]
      simp [he]
    have hser : natDigits m = Char.ofNat (48 + d0) ::
        rl.map (fun d => Char.ofNat (48 + d)) := by
      rw [natDigits, hrev, List.map_cons]
    obtain ⟨hdig, hval⟩ := digit_char_spec d0 hd0
    refine ⟨Char.ofNat (48 + d0), rl.map (fun d => Char.ofNat (48 + d)), ?_, hdig, ?_⟩
    · rw [serNat, if_neg hm, hser]
    · rw [hval, parseNatLoop_digits _ _ _ ?digits hrest]
      case digits =>
        intro c hc
        obtain ⟨e, he, rfl⟩ := List.mem_map.mp hc
        exact (digit_char_spec e (hrl e he)).1
      rw [foldl_map_digitChar _ _ hrl]
      have := foldl_reverse_ofDigits (Nat.digits 10 m) 0
      rw [hrev] at this
      simp only [List.foldl_cons, Nat.mul_zero, Nat.zero_add, Nat.zero_mul,
        Nat.ofDigits_digits] at this
      rw [this]

/-- A serialized natural number parses back to itself. -/
theorem parseNum_serNat (m : Nat) (rest : List Char) (hrest : goodTail rest) :
    parseNum (serNat m ++ rest) = some (Int.ofNat m, rest) := by
  obtain ⟨d, ds, hser, hdig, hloop⟩ := serNat_parse m rest hrest
  obtain ⟨-, -, -, -, -, -, -, hminus⟩ := isDigit_props d hdig
  rw [hser]
  simp only [List.cons_append, parseNum, if_neg hminus, hdig, if_pos, hloop]

/-- A serialized integer parses back to itself. -/
theorem parseNum_serInt (n : Int) (rest : List Char) (hrest : goodTail rest) :
    parseNum (serInt n ++ rest) = some (n, rest) := by
  by_cases hneg : n < 0
  · rw [serInt, if_pos hneg]
    have habs : n.natAbs ≠ 0 := by omega
    obtain ⟨d, ds, hser, hdig, hloop⟩ := serNat_parse n.natAbs rest hrest
    rw [List.cons_append, hser]
    have hdash : ('-' : Char) = '-' := rfl
    simp only [parseNum, if_pos hdash, List.cons_append, hdig, if_pos, hloop]
    rw [Int.ofNat_eq_natCast, Int.natCast_natAbs, abs_of_neg hneg, neg_neg]
  · rw [serInt, if_neg hneg, parseNum_serNat _ _ hrest,
      Int.ofNat_eq_natCast, Int.toNat_of_nonneg (by omega)]

/-- A hexadecimal digit character decodes to its value. -/
theorem hexVal_hexDigitChar (d : Nat) (hd : d < 16) :
    hexVal (hexDigitChar d) = some d := by
  interval_cases d <;> decide


/-- Decoding one short escape pair at the front of a string body. -/
theorem parseStrBody_pair (e u : Char) (cs tail rest : List Char)
    (he : ¬(e = 'u')) (hu : unescapeChar e = some u)
    (hrec : parseStrBody tail = some (cs, rest)) :
    parseStrBody (backslashChar :: e :: tail) = some (u :: cs, rest) := by
  rw [parseStrBody.eq_def]
  simp only [if_neg (by decide : ¬(backslashChar = quoteChar)), if_pos rfl,
    if_neg he, hu, hrec, if_true]

/-- Decoding a plain (unescaped) character at the front of a string body. -/
theorem parseStrBody_plain (c : Char) (cs tail rest : List Char)
    (h1 : ¬(c = quoteChar)) (h2 : ¬(c = backslashChar))
    (hrec : parseStrBody tail = some (cs, rest)) :
    parseStrBody (c :: tail) = some (c :: cs, rest) := by
  rw [parseStrBody.eq_def]
  simp only [if_neg h1, if_neg h2, hrec]

/-- Decoding a `\u00XX` escape at the front of a string body. -/
theorem parseStrBody_hex (t : Nat) (cs tail rest : List Char) (ht : t < 32)
    (hrec : parseStrBody tail = some (cs, rest)) :
    parseStrBody (backslashChar :: 'u' :: '0' :: '0' ::
        hexDigitChar (t / 16) :: hexDigitChar (t % 16) :: tail) =
      some (Char.ofNat t :: cs, rest) := by
  have hhi : hexVal (hexDigitChar (t / 16)) = some (t / 16) :=
    hexVal_hexDigitChar _ (by omega)
  have hlo : hexVal (hexDigitChar (t % 16)) = some (t % 16) :=
    hexVal_hexDigitChar _ (by omega)
  rw [parseStrBody.eq_def]
  simp only [if_neg (by decide : ¬(backslashChar = quoteChar)), if_pos rfl,
    (by decide : hexVal '0' = some 0), hhi, hlo, hrec, if_true]
  rw [show 4096 * 0 + 256 * 0 + 16 * (t / 16) + t % 16 = t by omega]

/-- Decoding a string body undoes the escaping: the escaped characters
followed by a closing quote parse back to the original characters. -/
theorem parseStrBody_escape (l : List Char) (rest : List Char) :
    parseStrBody (escapeList l ++ quoteChar :: rest) = some (l, rest) := by
  induction l with
  | nil =>
    simp only [escapeList, List.nil_append]
    rw [parseStrBody.eq_def]
    simp only [if_pos rfl, if_true]
  | cons c cs ih =>
    rw [escapeList, List.append_assoc]
    by_cases h1 : c = quoteChar
    · rw [escapeChar, if_pos h1, List.cons_append, List.cons_append,
        List.nil_append, h1]
      exact parseStrBody_pair quoteChar quoteChar cs _ rest (by decide)
        (by decide) ih
    · by_cases h2 : c = backslashChar
      · rw [escapeChar, if_neg h1, if_pos h2, List.cons_append,
          List.cons_append, List.nil_append, h2]
        exact parseStrBody_pair backslashChar backslashChar cs _ rest
          (by decide) (by decide) ih
      · by_cases h3 : c = '\n'
        · rw [escapeChar, if_neg h1, if_neg h2, if_pos h3, List.cons_append,
            List.cons_append, List.nil_append, h3]
          exact parseStrBody_pair 'n' '\n' cs _ rest (by decide) (by decide) ih
        · by_cases h4 : c = '\t'
          · rw [escapeChar, if_neg h1, if_neg h2, if_neg h3, if_pos h4,
              List.cons_append, List.cons_append, List.nil_append, h4]
            exact parseStrBody_pair 't' '\t' cs _ rest (by decide)
              (by decide) ih
          · by_cases h5 : c = '\r'
            · rw [escapeChar, if_neg h1, if_neg h2, if_neg h3, if_neg h4,
                if_pos h5, List.cons_append, List.cons_append,
                List.nil_append, h5]
              exact parseStrBody_pair 'r' '\r' cs _ rest (by decide)
                (by decide) ih
            · by_cases h6 : c = Char.ofNat 8
              · rw [escapeChar, if_neg h1, if_neg h2, if_neg h3, if_neg h4,
                  if_neg h5, if_pos h6, List.cons_append, List.cons_append,
                  List.nil_append, h6]
                exact parseStrBody_pair 'b' (Char.ofNat 8) cs _ rest
                  (by decide) (by decide) ih
              · by_cases h7 : c = Char.ofNat 12
                · rw [escapeChar, if_neg h1, if_neg h2, if_neg h3, if_neg h4,
                    if_neg h5, if_neg h6, if_pos h7, List.cons_append,
                    List.cons_append, List.nil_append, h7]
                  exact parseStrBody_pair 'f' (Char.ofNat 12) cs _ rest
                    (by decide) (by decide) ih
                · by_cases h8 : c.toNat < 32
                  · rw [escapeChar, if_neg h1, if_neg h2, if_neg h3, if_neg h4,
                      if_neg h5, if_neg h6, if_neg h7, if_pos h8,
                      List.cons_append, List.cons_append, List.cons_append,
                      List.cons_append, List.cons_append, List.cons_append,
                      List.nil_append]
                    have := parseStrBody_hex c.toNat cs
                      (escapeList cs ++ quoteChar :: rest) rest h8 ih
                    rwa [Char.ofNat_toNat] at this
                  · rw [escapeChar, if_neg h1, if_neg h2, if_neg h3, if_neg h4,
                      if_neg h5, if_neg h6, if_neg h7, if_neg h8,
                      List.cons_append, List.nil_append]
                    exact parseStrBody_plain c cs _ rest h1 h2 ih

/-- Every value needs at least one unit of fuel. -/
theorem sizeV_pos (v : JValue) : 1 ≤ sizeV v := by
  cases v <;> simp [sizeV]

/-- Remaining-elements fuel is at least one. -/
theorem sizeItems_pos (xs : List JValue) : 1 ≤ sizeItems xs := by
  cases xs <;> simp [sizeItems] <;> omega

/-- Remaining-members fuel is at least one. -/
theorem sizeMembers_pos (kvs : List (String × JValue)) : 1 ≤ sizeMembers kvs := by
  cases kvs <;> simp [sizeMembers] <;> omega

/-- Skipping whitespace twice is skipping it once. -/
theorem skipWs_idem (l : List Char) : skipWs (skipWs l) = skipWs l := by
  induction l with
  | nil => rfl
  | cons c cs ih =>
    by_cases h : isWsChar c = true
    · simpa [skipWs, h] using ih
    · rw [skipWs, if_neg h, skipWs, if_neg h]

/-- `parseVal` ignores leading whitespace. -/
theorem parseVal_skipWs (fuel : Nat) (input : List Char) :
    parseVal fuel (skipWs input) = parseVal fuel input := by
  cases fuel with
  | zero => rfl
  | succ f =>
    rw [parseVal.eq_2, parseVal.eq_2, skipWs_idem]

/-- `parseMember` ignores leading whitespace. -/
theorem parseMember_skipWs (fuel : Nat) (input : List Char) :
    parseMember fuel (skipWs input) = parseMember fuel input := by
  cases fuel with
  | zero => rfl
  | succ f =>
    rw [parseMember.eq_2, parseMember.eq_2, skipWs_idem]

/-- The literal characters drop from the front of the text they head. -/
theorem dropLit_append (lit rest : List Char) :
    dropLit lit (lit ++ rest) = some rest := by
  induction lit with
  | nil => rfl
  | cons c cs ih => simp [dropLit, ih]

/-- A Lean string rebuilt from its character list is itself. -/
theorem strMk_toList (s : String) : (⟨s.toList⟩ : String) = s := by
  cases s
  rfl

/-- A serialized integer starts with a minus sign or a digit. -/
theorem serInt_cons (n : Int) :
    ∃ d ds, serInt n = d :: ds ∧ (d = '-' ∨ isDigitChar d = true) := by
  by_cases hneg : n < 0
  · obtain ⟨d, ds, hser, hdig, -⟩ := serNat_parse n.natAbs [] trivial
    exact ⟨'-', serNat n.natAbs, by rw [serInt, if_pos hneg], Or.inl rfl⟩
  · obtain ⟨d, ds, hser, hdig, -⟩ := serNat_parse n.toNat [] trivial
    exact ⟨d, ds, by rw [serInt, if_neg hneg, hser], Or.inr hdig⟩

/-- A serialized value starts with a character that is not whitespace and not
a closing bracket. -/
theorem serValue_head (ind : Nat) (v : JValue) :
    ∃ d ds, serValue ind v = d :: ds ∧ isWsChar d = false ∧ ¬(d = ']') := by
  cases v with
  | null => exact ⟨'n', _, by rw [serValue], by decide, by decide⟩
  | bool b =>
    cases b with
    | true => exact ⟨'t', _, by rw [serValue], by decide, by decide⟩
    | false => exact ⟨'f', _, by rw [serValue], by decide, by decide⟩
  | num n =>
    obtain ⟨d, ds, hser, hd⟩ := serInt_cons n
    refine ⟨d, ds, by rw [serValue, hser], ?_, ?_⟩
    · rcases hd with h | h
      · rw [h]; decide
      · exact (isDigit_props d h).1
    · rcases hd with h | h
      · rw [h]; decide
      · intro he
        have := (isDigit_props d h).1
        rw [he] at h
        exact absurd h (by decide)
  | str s =>
    exact ⟨quoteChar, escapeList s.toList ++ [quoteChar],
      by rw [serValue, serStr], by decide, by decide⟩
  | arr xs =>
    cases xs with
    | nil => exact ⟨'[', _, by rw [serValue], by decide, by decide⟩
    | cons x xs => exact ⟨'[', _, by rw [serValue], by decide, by decide⟩
  | obj kvs =>
    cases kvs with
    | nil => exact ⟨obraceChar, _, by rw [serValue], by decide, by decide⟩
    | cons kv kvs => exact ⟨obraceChar, _, by rw [serValue], by decide, by decide⟩

/-- Input beginning with a serialized value is left alone by `skipWs`. -/
theorem skipWs_serValue (ind : Nat) (v : JValue) (rest : List Char) :
    skipWs (serValue ind v ++ rest) = serValue ind v ++ rest := by
  obtain ⟨d, ds, hser, hws, -⟩ := serValue_head ind v
  rw [hser, List.cons_append, skipWs_cons _ _ hws]

/-- The explicit head shape of a serialized object member. -/
theorem serMember_eq (ind : Nat) (k : String) (v : JValue) :
    serMember ind (k, v) = quoteChar :: (escapeList k.toList ++
      (quoteChar :: ':' :: ' ' :: serValue ind v)) := by
  rw [serMember, serStr]
  simp [List.append_assoc]

/-- What follows a value inside an array never begins with a digit. -/
theorem goodTail_items (ind2 ind : Nat) (xs : List JValue) (rest : List Char) :
    goodTail (serArrItems ind2 xs ++ (nlIndent ind ++ (']' :: rest))) := by
  cases xs with
  | nil =>
    rw [serArrItems, List.nil_append, nlIndent, List.cons_append]
    exact (by decide : isDigitChar '\n' = false)
  | cons y ys =>
    rw [serArrItems, List.cons_append]
    exact (by decide : isDigitChar ',' = false)

/-- What follows a value inside an object never begins with a digit. -/
theorem goodTail_members (ind2 ind : Nat) (kvs : List (String × JValue))
    (rest : List Char) :
    goodTail (serObjItems ind2 kvs ++ (nlIndent ind ++ (cbraceChar :: rest))) := by
  cases kvs with
  | nil =>
    rw [serObjItems, List.nil_append, nlIndent, List.cons_append]
    exact (by decide : isDigitChar '\n' = false)
  | cons kv kvs =>
    rw [serObjItems, List.cons_append]
    exact (by decide : isDigitChar ',' = false)

/-- Input beginning with a serialized member is left alone by `skipWs`. -/
theorem skipWs_serMember (ind : Nat) (k : String) (v : JValue)
    (rest : List Char) :
    skipWs (serMember ind (k, v) ++ rest) = serMember ind (k, v) ++ rest := by
  rw [serMember_eq, List.cons_append, skipWs_cons _ _ (by decide)]

theorem parse_ser (fuel : Nat) :
    (∀ (ind : Nat) (v : JValue) (rest : List Char), sizeV v ≤ fuel →
      goodTail rest → parseVal fuel (serValue ind v ++ rest) = some (v, rest)) ∧
    (∀ (ind2 ind : Nat) (xs : List JValue) (rest : List Char),
      sizeItems xs ≤ fuel →
      parseArrTail fuel
          (serArrItems ind2 xs ++ (nlIndent ind ++ (']' :: rest))) =
        some (xs, rest)) ∧
    (∀ (ind : Nat) (k : String) (v : JValue) (rest : List Char),
      1 + sizeV v ≤ fuel → goodTail rest →
      parseMember fuel (serMember ind (k, v) ++ rest) = some ((k, v), rest)) ∧
    (∀ (ind2 ind : Nat) (kvs : List (String × JValue)) (rest : List Char),
      sizeMembers kvs ≤ fuel →
      parseObjTail fuel
          (serObjItems ind2 kvs ++ (nlIndent ind ++ (cbraceChar :: rest))) =
        some (kvs, rest)) := by
  induction fuel using Nat.strong_induction_on with
  | _ fuel IH =>
  cases fuel with
  | zero =>
    refine ⟨?_, ?_, ?_, ?_⟩
    · intro ind v rest hs hg
      exact absurd hs (by have := sizeV_pos v; omega)
    · intro ind2 ind xs rest hs
      exact absurd hs (by have := sizeItems_pos xs; omega)
    · intro ind k v rest hs hg
      exact absurd hs (by have := sizeV_pos v; omega)
    · intro ind2 ind kvs rest hs
      exact absurd hs (by have := sizeMembers_pos kvs; omega)
  | succ f =>
  obtain ⟨ih1, ih2, ih3, ih4⟩ := IH f (Nat.lt_succ_self f)
  refine ⟨?_, ?_, ?_, ?_⟩
  · -- parseVal
    intro ind v rest hs hg
    cases v with
    | null =>
      rw [serValue, List.cons_append, parseVal.eq_2,
        skipWs_cons _ _ (by decide)]
      simp only [if_pos rfl, dropLit_append, if_true]
    | bool b =>
      cases b with
      | true =>
        rw [serValue, List.cons_append, parseVal.eq_2,
          skipWs_cons _ _ (by decide)]
        simp only [if_neg (by decide : ¬('t' = 'n')), if_pos rfl,
          dropLit_append, if_true]
      | false =>
        rw [serValue, List.cons_append, parseVal.eq_2,
          skipWs_cons _ _ (by decide)]
        simp only [if_neg (by decide : ¬('f' = 'n')),
          if_neg (by decide : ¬('f' = 't')), if_pos rfl,
          dropLit_append, if_true]
    | num n =>
      rw [serValue]
      obtain ⟨d, ds, hser, hd⟩ := serInt_cons n
      have hws : isWsChar d = false := by
        rcases hd with h | h
        · rw [h]; decide
        · exact (isDigit_props d h).1
      have hn : ¬(d = 'n') := by
        rcases hd with h | h
        · rw [h]; decide
        · exact (isDigit_props d h).2.1
      have ht : ¬(d = 't') := by
        rcases hd with h | h
        · rw [h]; decide
        · exact (isDigit_props d h).2.2.1
      have hf : ¬(d = 'f') := by
        rcases hd with h | h
        · rw [h]; decide
        · exact (isDigit_props d h).2.2.2.1
      have hq : ¬(d = quoteChar) := by
        rcases hd with h | h
        · rw [h]; decide
        · exact (isDigit_props d h).2.2.2.2.1
      have hb : ¬(d = '[') := by
        rcases hd with h | h
        · rw [h]; decide
        · exact (isDigit_props d h).2.2.2.2.2.1
      have ho : ¬(d = obraceChar) := by
        rcases hd with h | h
        · rw [h]; decide
        · exact (isDigit_props d h).2.2.2.2.2.2.1
      rw [hser, List.cons_append, parseVal.eq_2, skipWs_cons _ _ hws]
      simp only [if_neg hn, if_neg ht, if_neg hf, if_neg hq, if_neg hb,
        if_neg ho]
      rw [← List.cons_append, ← hser, parseNum_serInt n rest hg]
    | str s =>
      rw [serValue, serStr, List.cons_append, parseVal.eq_2,
        skipWs_cons _ _ (by decide)]
      simp only [if_neg (by decide : ¬(quoteChar = 'n')),
        if_neg (by decide : ¬(quoteChar = 't')),
        if_neg (by decide : ¬(quoteChar = 'f')), if_pos rfl, if_true,
        List.append_assoc, List.singleton_append, parseStrBody_escape,
        strMk_toList]
    | arr xs =>
      cases xs with
      | nil =>
        rw [serValue, List.cons_append, parseVal.eq_2,
          skipWs_cons _ _ (by decide)]
        simp only [if_neg (by decide : ¬('[' = 'n')),
          if_neg (by decide : ¬('[' = 't')),
          if_neg (by decide : ¬('[' = 'f')),
          if_neg (by decide : ¬('[' = quoteChar)), if_pos rfl, if_true,
          List.singleton_append]
        rw [skipWs_cons _ _ (by decide)]
        simp only [if_pos rfl, if_true]
      | cons x xs =>
        rw [serValue, List.cons_append, parseVal.eq_2,
          skipWs_cons _ _ (by decide)]
        simp only [if_neg (by decide : ¬('[' = 'n')),
          if_neg (by decide : ¬('[' = 't')),
          if_neg (by decide : ¬('[' = 'f')),
          if_neg (by decide : ¬('[' = quoteChar)), if_pos rfl, if_true]
        rw [List.append_assoc, List.append_assoc, List.append_assoc,
          List.append_assoc, List.singleton_append, skipWs_nlIndent,
          skipWs_serValue]
        obtain ⟨d, ds, hser, hws, hne⟩ := serValue_head (ind + 2) x
        rw [hser, List.cons_append]
        simp only [if_neg hne]
        rw [← List.cons_append, ← hser]
        have hsx : sizeV x ≤ f := by
          have := sizeItems_pos xs
          simp only [sizeV, sizeItems] at hs
          omega
        have hsxs : sizeItems xs ≤ f := by
          have := sizeV_pos x
          simp only [sizeV, sizeItems] at hs
          omega
        simp only [ih1 (ind + 2) x _ hsx (goodTail_items (ind + 2) ind xs rest),
          ih2 (ind + 2) ind xs rest hsxs]
    | obj kvs =>
      cases kvs with
      | nil =>
        rw [serValue, List.cons_append, parseVal.eq_2,
          skipWs_cons _ _ (by decide)]
        simp only [if_neg (by decide : ¬(obraceChar = 'n')),
          if_neg (by decide : ¬(obraceChar = 't')),
          if_neg (by decide : ¬(obraceChar = 'f')),
          if_neg (by decide : ¬(obraceChar = quoteChar)),
          if_neg (by decide : ¬(obraceChar = '[')), if_pos rfl, if_true,
          List.singleton_append]
        rw [skipWs_cons _ _ (by decide)]
        simp only [if_pos rfl, if_true]
      | cons kv kvs =>
        obtain ⟨k, v⟩ := kv
        rw [serValue, List.cons_append, parseVal.eq_2,
          skipWs_cons _ _ (by decide)]
        simp only [if_neg (by decide : ¬(obraceChar = 'n')),
          if_neg (by decide : ¬(obraceChar = 't')),
          if_neg (by decide : ¬(obraceChar = 'f')),
          if_neg (by decide : ¬(obraceChar = quoteChar)),
          if_neg (by decide : ¬(obraceChar = '[')), if_pos rfl, if_true]
        rw [List.append_assoc, List.append_assoc, List.append_assoc,
          List.append_assoc, List.singleton_append, skipWs_nlIndent,
          skipWs_serMember]
        rw [serMember_eq, List.cons_append]
        simp only [if_neg (by decide : ¬(quoteChar = cbraceChar))]
        rw [← List.cons_append, ← serMember_eq]
        have hsv : 1 + sizeV v ≤ f := by
          simp only [sizeV, sizeMembers] at hs
          omega
        have hsk : sizeMembers kvs ≤ f := by
          have := sizeV_pos v
          simp only [sizeV, sizeMembers] at hs
          omega
        simp only [ih3 (ind + 2) k v _ hsv
            (goodTail_members (ind + 2) ind kvs rest),
          ih4 (ind + 2) ind kvs rest hsk]
  · -- parseArrTail
    intro ind2 ind xs rest hsz
    cases xs with
    | nil =>
      rw [serArrItems, List.nil_append, parseArrTail.eq_2, skipWs_nlIndent,
        skipWs_cons _ _ (by decide)]
      simp only [if_pos rfl, if_true]
    | cons y ys =>
      rw [serArrItems, List.cons_append, parseArrTail.eq_2,
        skipWs_cons _ _ (by decide)]
      simp only [if_neg (by decide : ¬(',' = ']')), if_pos rfl, if_true]
      rw [List.append_assoc, List.append_assoc]
      have hsy : sizeV y ≤ f := by
        have := sizeItems_pos ys
        simp only [sizeItems] at hsz
        omega
      have hsys : sizeItems ys ≤ f := by
        have := sizeV_pos y
        simp only [sizeItems] at hsz
        omega
      have hv : parseVal f (nlIndent ind2 ++ (serValue ind2 y ++
          (serArrItems ind2 ys ++ (nlIndent ind ++ (']' :: rest))))) =
          some (y, serArrItems ind2 ys ++ (nlIndent ind ++ (']' :: rest))) := by
        rw [← parseVal_skipWs, skipWs_nlIndent, skipWs_serValue]
        exact ih1 ind2 y _ hsy (goodTail_items ind2 ind ys rest)
      simp only [hv, ih2 ind2 ind ys rest hsys]
  · -- parseMember
    intro ind k v rest hsz hg
    rw [serMember_eq, List.cons_append, parseMember.eq_2,
      skipWs_cons _ _ (by decide)]
    simp only [if_pos rfl, if_true]
    rw [List.append_assoc, List.cons_append, parseStrBody_escape]
    simp only []
    rw [List.cons_append, skipWs_cons _ _ (by decide)]
    simp only [if_pos rfl, if_true]
    have hsv : sizeV v ≤ f := by omega
    have hv : parseVal f ((' ' :: serValue ind v) ++ rest) =
        some (v, rest) := by
      rw [List.cons_append, ← parseVal_skipWs,
        show skipWs (' ' :: (serValue ind v ++ rest)) =
          skipWs (serValue ind v ++ rest) from rfl,
        skipWs_serValue]
      exact ih1 ind v rest hsv hg
    simp only [hv, strMk_toList]
  · -- parseObjTail
    intro ind2 ind kvs rest hsz
    cases kvs with
    | nil =>
      rw [serObjItems, List.nil_append, parseObjTail.eq_2, skipWs_nlIndent,
        skipWs_cons _ _ (by decide)]
      simp only [if_pos rfl, if_true]
    | cons kv kvs =>
      obtain ⟨k, v⟩ := kv
      rw [serObjItems, List.cons_append, parseObjTail.eq_2,
        skipWs_cons _ _ (by decide)]
      simp only [if_neg (by decide : ¬(',' = cbraceChar)), if_pos rfl, if_true]
      rw [List.append_assoc, List.append_assoc]
      have hsv : 1 + sizeV v ≤ f := by
        simp only [sizeMembers] at hsz
        omega
      have hsk : sizeMembers kvs ≤ f := by
        have := sizeV_pos v
        simp only [sizeMembers] at hsz
        omega
      have hm : parseMember f (nlIndent ind2 ++ (serMember ind2 (k, v) ++
          (serObjItems ind2 kvs ++ (nlIndent ind ++ (cbraceChar :: rest))))) =
          some ((k, v), serObjItems ind2 kvs ++
            (nlIndent ind ++ (cbraceChar :: rest))) := by
        rw [← parseMember_skipWs, skipWs_nlIndent, skipWs_serMember]
        exact ih3 ind2 k v _ hsv (goodTail_members ind2 ind kvs rest)
      simp only [hm, ih4 ind2 ind kvs rest hsk]

mutual

/-- The fuel a serialized value needs is at most its length plus one. -/
theorem sizeV_le_len (ind : Nat) (v : JValue) :
    sizeV v ≤ (serValue ind v).length + 1 := by
  cases v with
  | null => simp [sizeV, serValue]
  | bool b => cases b <;> simp [sizeV, serValue]
  | num n => simp [sizeV]
  | str s => simp [sizeV]
  | arr xs =>
    cases xs with
    | nil => simp [sizeV, sizeItems, serValue]
    | cons x xs =>
      have h1 := sizeV_le_len (ind + 2) x
      have h2 := sizeItems_le_len (ind + 2) xs
      simp only [sizeV, sizeItems, serValue, List.length_cons,
        List.length_append, nlIndent, List.length_replicate,
        List.length_singleton]
      omega
  | obj kvs =>
    cases kvs with
    | nil => simp [sizeV, sizeMembers, serValue]
    | cons kv kvs =>
      have h1 := sizeV_le_len (ind + 2) kv.2
      have h2 := sizeMembers_le_len (ind + 2) kvs
      obtain ⟨k, v⟩ := kv
      simp only [sizeV, sizeMembers, serValue, serMember, serStr,
        List.length_cons, List.length_append, nlIndent,
        List.length_replicate, List.length_singleton] at h1 h2 ⊢
      omega

/-- The fuel serialized remaining elements need is at most their length plus
one. -/
theorem sizeItems_le_len (ind : Nat) (xs : List JValue) :
    sizeItems xs ≤ (serArrItems ind xs).length + 1 := by
  cases xs with
  | nil => simp [sizeItems, serArrItems]
  | cons x xs =>
    have h1 := sizeV_le_len ind x
    have h2 := sizeItems_le_len ind xs
    simp only [sizeItems, serArrItems, List.length_cons, List.length_append,
      nlIndent, List.length_replicate]
    omega

/-- The fuel serialized remaining members need is at most their length plus
one. -/
theorem sizeMembers_le_len (ind : Nat) (kvs : List (String × JValue)) :
    sizeMembers kvs ≤ (serObjItems ind kvs).length + 1 := by
  cases kvs with
  | nil => simp [sizeMembers, serObjItems]
  | cons kv kvs =>
    have h1 := sizeV_le_len ind kv.2
    have h2 := sizeMembers_le_len ind kvs
    obtain ⟨k, v⟩ := kv
    simp only [sizeMembers, serObjItems, serMember, serStr, List.length_cons,
      List.length_append, nlIndent, List.length_replicate,
      List.length_singleton] at h1 h2 ⊢
    omega

end

/-- C8: serializing any message sequence with the persistence helper and
deserializing the written JSON text yields the same sequence back, and every
character at or above `0x20` other than the quote and the backslash — all
non-ASCII text included — is written verbatim, unescaped. -/
theorem c8_persist_roundtrip (ms : List JValue) :
    parseJson (save_emails_to_json ms) = some (.arr ms) ∧
    (∀ c : Char, 32 ≤ c.toNat → ¬(c = quoteChar) → ¬(c = backslashChar) →
      escapeChar c = [c]) := by
  constructor
  · have hsz : sizeV (.arr ms) ≤ (serValue 0 (.arr ms)).length + 1 :=
      sizeV_le_len 0 (.arr ms)
    have h := (parse_ser ((serValue 0 (.arr ms)).length + 1)).1 0 (.arr ms)
      [] hsz trivial
    rw [List.append_nil] at h
    rw [parseJson, save_emails_to_json, h]
    simp [skipWs]
  · intro c h32 hq hb
    have hn : ¬(c = '\n') := by
      intro he
      rw [he] at h32
      exact absurd h32 (by decide)
    have ht : ¬(c = '\t') := by
      intro he
      rw [he] at h32
      exact absurd h32 (by decide)
    have hr : ¬(c = '\r') := by
      intro he
      rw [he] at h32
      exact absurd h32 (by decide)
    have h8 : ¬(c = Char.ofNat 8) := by
      intro he
      rw [he] at h32
      exact absurd h32 (by decide)
    have h12 : ¬(c = Char.ofNat 12) := by
      intro he
      rw [he] at h32
      exact absurd h32 (by decide)
    rw [escapeChar, if_neg hq, if_neg hb, if_neg hn, if_neg ht, if_neg hr,
      if_neg h8, if_neg h12, if_neg (by omega)]

/-- Witness for C8: the spec's non-ASCII example message round-trips, and the
character `'验'` is written verbatim. -/
theorem c8_persist_roundtrip_witness :
    parseJson (save_emails_to_json
        [.obj [("subject", .str "验证您的电子邮箱地址")]]) =
      some (.arr [.obj [("subject", .str "验证您的电子邮箱地址")]]) ∧
    escapeChar '验' = ['验'] :=
  ⟨(c8_persist_roundtrip [.obj [("subject", .str "验证您的电子邮箱地址")]]).1,
   (c8_persist_roundtrip []).2 '验' (by decide) (by decide) (by decide)⟩
